import Mathlib

/-!
Verification development for the decision core of the tecnomyl absence-evaluation
system: the safe expression evaluator and forward-chaining inference engine
(expert/inference_engine.py), the rule validation entry point
(expert/rules_manager.py), and the case-based-reasoning engine
(expert/case_based_learning.py).

The Python code is shallowly embedded: dynamic values become the closed `Value`
type, the fact environment becomes an association list with dict semantics,
exceptions become `Except` (a function that catches internally returns a plain
value), and wall-clock timestamps become an explicit integer parameter `now`
(seconds).  Expression texts are represented by their parse outcome
(`Option Expr`): `none` stands for text `ast.parse` rejects, `some e` for text
parsing to the AST `e`; the AST grammar and its evaluation mirror
`SafeExpressionEvaluator._eval_node` node by node.  Python floats are modelled
as exact rationals.
-/

set_option maxRecDepth 1000000

namespace Tecnomyl

/-- Tags for the only callables that can occur in a fact environment: the
allow-listed builtins of `SafeExpressionEvaluator.ALLOWED_FUNCTIONS`, the
special functions injected by `InferenceEngine._add_special_functions`, and the
fixed test lambdas used by `RulesManager.validate_condition`. -/
inductive FuncTag where
  | fLen | fStr | fInt | fFloat | fBool | fAbs | fMin | fMax
  | daysSince | hoursSince | isWeekend
  | tHours24 | tDays1 | tWeekendFalse
deriving DecidableEq, Repr

instance : BEq FuncTag := instBEqOfDecidableEq

/-- Dynamic Python values as they occur in fact environments and expression
evaluation.  `vFloat` holds an exact rational (Python float rounding is not
modelled); `vDatetime` holds a timestamp in seconds; `vDict` appears only in
the observation records built by `_add_observacion`. -/
inductive Value where
  | vNone
  | vBool (b : Bool)
  | vInt (n : Int)
  | vFloat (q : ℚ)
  | vStr (s : String)
  | vList (xs : List Value)
  | vDict (entries : List (String × Value))
  | vDatetime (t : Int)
  | vFunc (f : FuncTag)
deriving Repr

open Value

/-- Python truthiness (`bool(v)`). -/
def truthy : Value → Bool
  | .vNone => false
  | .vBool b => b
  | .vInt n => decide (n ≠ 0)
  | .vFloat q => decide (q ≠ 0)
  | .vStr s => decide (s ≠ "")
  | .vList xs => !xs.isEmpty
  | .vDict xs => !xs.isEmpty
  | .vDatetime _ => true
  | .vFunc _ => true

/-- Python `str.strip()` whitespace (the common ASCII whitespace characters). -/
def isSpaceChar (c : Char) : Bool :=
  c == ' ' || c == '\t' || c == '\n' || c == '\r'

/-- Python `str.strip()`. -/
def pyStrip (s : String) : String :=
  String.mk (((s.data.dropWhile isSpaceChar).reverse.dropWhile isSpaceChar).reverse)

/-- Python `c in s` for a single character. -/
def strHasChar (s : String) (c : Char) : Bool :=
  s.data.any (fun d => d == c)

/-- `str.split(sep)` for a one-character separator, on the character list. -/
def splitOnChar (sep : Char) : List Char → List (List Char)
  | [] => [[]]
  | c :: rest =>
    let r := splitOnChar sep rest
    if c == sep then [] :: r
    else
      match r with
      | [] => [[c]]
      | g :: gs => (c :: g) :: gs

/-- Python `s.split(sep)` for a one-character separator. -/
def pySplit (s : String) (sep : Char) : List String :=
  (splitOnChar sep s.data).map String.mk

/-- Lexicographic strict order on character lists (Python string `<`, by code
point). -/
def charListLt : List Char → List Char → Bool
  | [], [] => false
  | [], _ :: _ => true
  | _ :: _, [] => false
  | a :: as, b :: bs => if a = b then charListLt as bs else decide (a < b)

/-- Python string `<`. -/
def strLtB (a b : String) : Bool := charListLt a.data b.data

/-- Python string `<=`. -/
def strLeB (a b : String) : Bool := strLtB a b || a == b

/-- Numeric view of a value: Python `bool`, `int` and `float` intermix in
arithmetic comparisons and equality (`True == 1`, `1 == 1.0`). -/
def toRat? : Value → Option ℚ
  | .vBool b => some (if b then 1 else 0)
  | .vInt n => some (n : ℚ)
  | .vFloat q => some q
  | _ => none

mutual

/-- Python `==` on values: numeric cross-type equality, structural equality on
strings, lists and timestamps, `False` across unrelated types (never raises).
Dict equality compares entries in order, which coincides with Python's key-set
equality for the fixed-shape observation dicts this system builds. -/
def pyEq : Value → Value → Bool
  | a, b =>
    match toRat? a, toRat? b with
    | some x, some y => decide (x = y)
    | _, _ =>
      match a, b with
      | .vStr s, .vStr t => s == t
      | .vNone, .vNone => true
      | .vDatetime x, .vDatetime y => x == y
      | .vFunc f, .vFunc g => f == g
      | .vList xs, .vList ys => pyEqList xs ys
      | .vDict xs, .vDict ys => pyEqDict xs ys
      | _, _ => false

def pyEqList : List Value → List Value → Bool
  | [], [] => true
  | x :: xs, y :: ys => pyEq x y && pyEqList xs ys
  | _, _ => false

def pyEqDict : List (String × Value) → List (String × Value) → Bool
  | [], [] => true
  | (k, v) :: xs, (k', v') :: ys => k == k' && pyEq v v' && pyEqDict xs ys
  | _, _ => false

end

mutual

/-- Python `<` on values (`operator.lt`): numbers compare numerically, strings
and lists lexicographically, timestamps chronologically; any other combination
raises a `TypeError`, modelled as `Except.error`. -/
def pyLtB : Value → Value → Except String Bool
  | a, b =>
    match toRat? a, toRat? b with
    | some x, some y => .ok (decide (x < y))
    | _, _ =>
      match a, b with
      | .vStr s, .vStr t => .ok (strLtB s t)
      | .vDatetime x, .vDatetime y => .ok (decide (x < y))
      | .vList xs, .vList ys => pyLtList xs ys
      | _, _ => .error "TypeError: orden no soportado entre tipos"

def pyLtList : List Value → List Value → Except String Bool
  | [], [] => .ok false
  | [], _ :: _ => .ok true
  | _ :: _, [] => .ok false
  | x :: xs, y :: ys =>
    if pyEq x y then pyLtList xs ys else pyLtB x y

end

mutual

/-- Python `<=` on values (`operator.le`), same type discipline as `pyLtB`. -/
def pyLeB : Value → Value → Except String Bool
  | a, b =>
    match toRat? a, toRat? b with
    | some x, some y => .ok (decide (x ≤ y))
    | _, _ =>
      match a, b with
      | .vStr s, .vStr t => .ok (strLeB s t)
      | .vDatetime x, .vDatetime y => .ok (decide (x ≤ y))
      | .vList xs, .vList ys => pyLeList xs ys
      | _, _ => .error "TypeError: orden no soportado entre tipos"

def pyLeList : List Value → List Value → Except String Bool
  | [], _ => .ok true
  | _ :: _, [] => .ok false
  | x :: xs, y :: ys =>
    if pyEq x y then pyLeList xs ys else pyLtB x y

end

/-- `takesStart hay needle`: `needle` is an initial segment of `hay`. -/
def takesStart : List Char → List Char → Bool
  | _, [] => true
  | [], _ :: _ => false
  | h :: hs, n :: ns => h == n && takesStart hs ns

/-- `hasSub hay needle`: `needle` occurs contiguously in `hay` (Python
substring containment `needle in hay`). -/
def hasSub : List Char → List Char → Bool
  | hay, needle =>
    takesStart hay needle ||
      match hay with
      | [] => false
      | _ :: rest => hasSub rest needle

/-- Python `in` (`lambda x, y: x in y`): list membership via `==`, substring
test on strings, key membership on dicts; other containers raise. -/
def pyIn (x y : Value) : Except String Bool :=
  match y with
  | .vList ys => .ok (ys.any (fun v => pyEq x v))
  | .vStr s =>
    match x with
    | .vStr sub => .ok (hasSub s.data sub.data)
    | _ => .error "TypeError: in sobre cadena requiere cadena"
  | .vDict ys =>
    match x with
    | .vStr k => .ok (ys.any (fun kv => kv.1 == k))
    | .vList _ => .error "TypeError: clave no hashable"
    | .vDict _ => .error "TypeError: clave no hashable"
    | _ => .ok false
  | _ => .error "TypeError: argumento no iterable"

/-- A single-quote character as a string (used when mirroring Python quoting). -/
def sq : String := String.singleton (Char.ofNat 39)

/-- Abstract ISO-8601 rendering of a timestamp.  The model only relies on this
being a fixed deterministic function of the timestamp. -/
def isoformat (t : Int) : String := "ts:" ++ toString t

/-- Decimal digits to a natural number; `none` if empty or non-digit. -/
def digitsToNat? (cs : List Char) : Option Nat :=
  if cs.isEmpty then none
  else if cs.all Char.isDigit then
    some (cs.foldl (fun n c => n * 10 + (c.toNat - 48)) 0)
  else none

/-- Python `int(string)`: optional sign, decimal digits (whitespace already
trimmed by the caller; underscores and bases are not modelled). -/
def strToInt? (s : String) : Option Int :=
  match s.data with
  | '-' :: rest => (digitsToNat? rest).map (fun n => -(n : Int))
  | '+' :: rest => (digitsToNat? rest).map (fun n => (n : Int))
  | cs => (digitsToNat? cs).map (fun n => (n : Int))

/-- Unsigned decimal with optional fractional part (`"5"`, `"5."`, `".5"`,
`"5.25"`); exponents and specials are not modelled. -/
def decimalToRat? (cs : List Char) : Option ℚ :=
  match splitOnChar '.' cs with
  | [a] => (digitsToNat? a).map (fun n => (n : ℚ))
  | [a, b] =>
    if a.isEmpty && b.isEmpty then none
    else if a.all Char.isDigit && b.all Char.isDigit then
      let intPart : Nat := a.foldl (fun n c => n * 10 + (c.toNat - 48)) 0
      let fracPart : Nat := b.foldl (fun n c => n * 10 + (c.toNat - 48)) 0
      some ((intPart : ℚ) + (fracPart : ℚ) / ((10 : ℚ) ^ b.length))
    else none
  | _ => none

/-- Python `float(string)` on a trimmed string. -/
def strToRat? (s : String) : Option ℚ :=
  match s.data with
  | '-' :: rest => (decimalToRat? rest).map (fun q => -q)
  | '+' :: rest => decimalToRat? rest
  | cs => decimalToRat? cs

/-- Truncation toward zero, as Python `int(float)`. -/
def ratTrunc (q : ℚ) : Int := if 0 ≤ q then q.floor else q.ceil

/-- Abstract rendering of a float value (Python float `repr` is approximated;
no claim depends on its exact text). -/
def ratStr (q : ℚ) : String :=
  if q.den = 1 then toString q.num ++ ".0"
  else toString q.num ++ "/" ++ toString q.den

mutual

/-- Python `str(v)` for the modelled values; container rendering follows
`repr` of the elements. -/
def pyStr : Value → String
  | .vNone => "None"
  | .vBool b => if b then "True" else "False"
  | .vInt n => toString n
  | .vFloat q => ratStr q
  | .vStr s => s
  | .vDatetime t => isoformat t
  | .vFunc _ => "<function>"
  | .vList xs => "[" ++ String.intercalate ", " (pyReprList xs) ++ "]"
  | .vDict xs => "\x7b" ++ String.intercalate ", " (pyReprDict xs) ++ "\x7d"

/-- Python `repr(v)`; strings gain quotes (single quotes are always used,
Python's quote-choice heuristics are not modelled). -/
def pyRepr : Value → String
  | .vStr s => sq ++ s ++ sq
  | .vList xs => "[" ++ String.intercalate ", " (pyReprList xs) ++ "]"
  | .vDict xs => "\x7b" ++ String.intercalate ", " (pyReprDict xs) ++ "\x7d"
  | v => pyStr v

def pyReprList : List Value → List String
  | [] => []
  | x :: xs => pyRepr x :: pyReprList xs

def pyReprDict : List (String × Value) → List String
  | [] => []
  | (k, v) :: xs => (sq ++ k ++ sq ++ ": " ++ pyRepr v) :: pyReprDict xs

end

/-- Python `int(v)` for one argument. -/
def pyInt (v : Value) : Except String Value :=
  match v with
  | .vBool b => .ok (.vInt (if b then 1 else 0))
  | .vInt n => .ok (.vInt n)
  | .vFloat q => .ok (.vInt (ratTrunc q))
  | .vStr s =>
    match strToInt? (pyStrip s) with
    | some n => .ok (.vInt n)
    | none => .error "ValueError: literal invalido para int"
  | _ => .error "TypeError: int() sobre tipo no soportado"

/-- Python `float(v)` for one argument, as an exact rational. -/
def pyFloatQ (v : Value) : Except String ℚ :=
  match v with
  | .vBool b => .ok (if b then 1 else 0)
  | .vInt n => .ok (n : ℚ)
  | .vFloat q => .ok q
  | .vStr s =>
    match strToRat? (pyStrip s) with
    | some q => .ok q
    | none => .error "ValueError: literal invalido para float"
  | _ => .error "TypeError: float() sobre tipo no soportado"

/-- One reduction step of Python `min`/`max` over the remaining candidates:
for `min` the candidate replaces the accumulator when strictly smaller, for
`max` when strictly greater, so the first extremal element is kept on ties. -/
def pyMinMaxFold (isMin : Bool) (acc : Value) : List Value → Except String Value
  | [] => .ok acc
  | x :: xs => do
    let repl ← if isMin then pyLtB x acc else pyLtB acc x
    pyMinMaxFold isMin (if repl then x else acc) xs

/-- Python `min(...)`/`max(...)`: either one iterable argument (list, or string
iterated as one-character strings) or several plain arguments. -/
def pyMinMax (isMin : Bool) (args : List Value) : Except String Value :=
  match args with
  | [] => .error "TypeError: se esperaba al menos un argumento"
  | [v] =>
    match v with
    | .vList [] => .error "ValueError: iterable vacio"
    | .vList (x :: xs) => pyMinMaxFold isMin x xs
    | .vStr s =>
      match s.data.map (fun c => Value.vStr (String.singleton c)) with
      | [] => .error "ValueError: iterable vacio"
      | x :: xs => pyMinMaxFold isMin x xs
    | _ => .error "TypeError: argumento no iterable"
  | x :: xs => pyMinMaxFold isMin x xs

/-- Application of any callable value, by tag.  `now` is the wall clock at call
time (modelled as fixed during a run).  Mirrors: the builtins of
`ALLOWED_FUNCTIONS`; the lambdas of `_add_special_functions`
(`days_since`/`hours_since` return the sentinel `999` for a falsy argument,
otherwise the elapsed days — floor division — or fractional hours);
and the constant test lambdas of `validate_condition`. -/
def applyFunc (tag : FuncTag) (now : Int) (args : List Value) : Except String Value :=
  match tag with
  | .fLen =>
    match args with
    | [.vStr s] => .ok (.vInt s.length)
    | [.vList xs] => .ok (.vInt xs.length)
    | [.vDict xs] => .ok (.vInt xs.length)
    | [_] => .error "TypeError: objeto sin len()"
    | _ => .error "TypeError: aridad de len"
  | .fStr =>
    match args with
    | [] => .ok (.vStr "")
    | [v] => .ok (.vStr (pyStr v))
    | _ => .error "TypeError: aridad de str"
  | .fInt =>
    match args with
    | [] => .ok (.vInt 0)
    | [v] => pyInt v
    | _ => .error "TypeError: aridad de int"
  | .fFloat =>
    match args with
    | [] => .ok (.vFloat 0)
    | [v] => (pyFloatQ v).map Value.vFloat
    | _ => .error "TypeError: aridad de float"
  | .fBool =>
    match args with
    | [] => .ok (.vBool false)
    | [v] => .ok (.vBool (truthy v))
    | _ => .error "TypeError: aridad de bool"
  | .fAbs =>
    match args with
    | [.vBool b] => .ok (.vInt (if b then 1 else 0))
    | [.vInt n] => .ok (.vInt (if n < 0 then -n else n))
    | [.vFloat q] => .ok (.vFloat |q|)
    | [_] => .error "TypeError: abs sobre tipo no soportado"
    | _ => .error "TypeError: aridad de abs"
  | .fMin => pyMinMax true args
  | .fMax => pyMinMax false args
  | .daysSince =>
    match args with
    | [v] =>
      if truthy v then
        match v with
        | .vDatetime t => .ok (.vInt ((now - t).fdiv 86400))
        | _ => .error "TypeError: resta de datetime"
      else .ok (.vInt 999)
    | _ => .error "TypeError: aridad de days_since"
  | .hoursSince =>
    match args with
    | [v] =>
      if truthy v then
        match v with
        | .vDatetime t => .ok (.vFloat (((now - t : Int) : ℚ) / 3600))
        | _ => .error "TypeError: resta de datetime"
      else .ok (.vInt 999)
    | _ => .error "TypeError: aridad de hours_since"
  | .isWeekend =>
    match args with
    | [] => .ok (.vBool (decide (5 ≤ ((now.fdiv 86400) + 3).fmod 7)))
    | _ => .error "TypeError: aridad de is_weekend"
  | .tHours24 =>
    match args with
    | [_] => .ok (.vInt 24)
    | _ => .error "TypeError: aridad"
  | .tDays1 =>
    match args with
    | [_] => .ok (.vInt 1)
    | _ => .error "TypeError: aridad"
  | .tWeekendFalse =>
    match args with
    | [] => .ok (.vBool false)
    | _ => .error "TypeError: aridad"

/-- Comparison operators of `ast.Compare`.  `isOp`/`isNotOp` (`is`, `is not`)
parse but are not in `ALLOWED_OPERATORS`, so evaluating them raises. -/
inductive CmpOp where
  | lt | le | gt | ge | eq | ne | inOp | notInOp | isOp | isNotOp
deriving DecidableEq, Repr

/-- Boolean operators of `ast.BoolOp` (both are allow-listed). -/
inductive BoolOpK where
  | andOp | orOp
deriving DecidableEq, Repr

/-- Unary operators of `ast.UnaryOp`.  Only `not` is in `ALLOWED_OPERATORS`;
`-`/`+`/`~` parse but raise at evaluation. -/
inductive UnOpK where
  | notOp | usub | uadd | invert
deriving DecidableEq, Repr

/-- Expression ASTs as produced by `ast.parse(text, mode='eval')`, restricted
to the node kinds `_eval_node` distinguishes.  `binOp` stands for any
`ast.BinOp` (which `_eval_node` does not handle, so arithmetic is rejected by
its final `else` branch), `attr` for `ast.Attribute`, and `other` for every
remaining node kind; all three fall into the reject-all branch. -/
inductive Expr where
  | const (v : Value)
  | name (id : String)
  | listLit (elts : List Expr)
  | compare (left : Expr) (rest : List (CmpOp × Expr))
  | boolOp (op : BoolOpK) (values : List Expr)
  | unaryOp (op : UnOpK) (operand : Expr)
  | call (func : Expr) (args : List Expr)
  | binOp (kind : String) (l r : Expr)
  | attr (obj : Expr) (field : String)
  | other (kind : String)
deriving Repr

/-- The fact environment: a string-keyed mapping with Python dict semantics
(`envSet` updates in place or appends a fresh key). -/
def Env := List (String × Value)

/-- `facts.get(k)` (`none` = key absent). -/
def envGet (k : String) : Env → Option Value
  | [] => none
  | (k', v) :: rest => if k' = k then some v else envGet k rest

/-- `facts[k] = v`. -/
def envSet (e : Env) (k : String) (v : Value) : Env :=
  match e with
  | [] => [(k, v)]
  | (k', v') :: rest => if k' = k then (k, v) :: rest else (k', v') :: envSet rest k v

/-- Names of `SafeExpressionEvaluator.ALLOWED_FUNCTIONS`. -/
def builtinNames : List String :=
  ["len", "str", "int", "float", "bool", "abs", "min", "max"]

/-- The function object an allow-listed builtin name denotes. -/
def builtinTag (s : String) : FuncTag :=
  if s = "len" then .fLen
  else if s = "str" then .fStr
  else if s = "int" then .fInt
  else if s = "float" then .fFloat
  else if s = "bool" then .fBool
  else if s = "abs" then .fAbs
  else if s = "min" then .fMin
  else .fMax

/-- `ALLOWED_OPERATORS` application for one comparison operator.  `gt`/`ge`
are the reversed orders (`operator.gt a b = b < a` on the modelled types);
`is`/`is not` are missing from the allow-list and raise. -/
def applyCmpOp (op : CmpOp) (l r : Value) : Except String Value :=
  match op with
  | .lt => (pyLtB l r).map Value.vBool
  | .le => (pyLeB l r).map Value.vBool
  | .gt => (pyLtB r l).map Value.vBool
  | .ge => (pyLeB r l).map Value.vBool
  | .eq => .ok (.vBool (pyEq l r))
  | .ne => .ok (.vBool (!pyEq l r))
  | .inOp => (pyIn l r).map Value.vBool
  | .notInOp => (pyIn l r).map (fun b => Value.vBool (!b))
  | .isOp => .error "Operador no permitido"
  | .isNotOp => .error "Operador no permitido"

/-- The `and`/`or` lambdas of `ALLOWED_OPERATORS` (non-short-circuit: both
operands are already evaluated when they are applied). -/
def boolCombine (op : BoolOpK) (a b : Value) : Value :=
  match op with
  | .andOp => if truthy a then b else a
  | .orOp => if truthy a then a else b

mutual

/-- `SafeExpressionEvaluator._eval_node`, node by node.  Failures that Python
raises (`ValueError` for disallowed constructs, `TypeError` from operator or
builtin application) are `Except.error`. -/
def evalNode (now : Int) (facts : Env) : Expr → Except String Value
  | .const v => .ok v
  | .name id =>
    if id ∈ builtinNames then .ok (.vFunc (builtinTag id))
    else .ok ((envGet id facts).getD .vNone)
  | .listLit es => do
    let vs ← evalExprList now facts es
    .ok (.vList vs)
  | .compare l rest => do
    let lv ← evalNode now facts l
    evalCmpRest now facts lv (.vBool true) rest
  | .boolOp op values => do
    let vs ← evalExprList now facts values
    match vs with
    | [] => .error "IndexError: lista vacia"
    | v :: rest => .ok (rest.foldl (boolCombine op) v)
  | .unaryOp op e =>
    match op with
    | .notOp => do
      let v ← evalNode now facts e
      .ok (.vBool (!truthy v))
    | _ => .error "Operador unario no permitido"
  | .call f args =>
    match f with
    | .name fname =>
      if fname ∈ builtinNames then do
        let vs ← evalExprList now facts args
        applyFunc (builtinTag fname) now vs
      else
        match envGet fname facts with
        | some (.vFunc tag) => do
          let vs ← evalExprList now facts args
          applyFunc tag now vs
        | _ => .error "Funcion no permitida"
    | _ => .error "Funcion no permitida"
  | .binOp _ _ _ => .error "Nodo AST no permitido"
  | .attr _ _ => .error "Nodo AST no permitido"
  | .other _ => .error "Nodo AST no permitido"

def evalExprList (now : Int) (facts : Env) : List Expr → Except String (List Value)
  | [] => .ok []
  | e :: es => do
    let v ← evalNode now facts e
    let vs ← evalExprList now facts es
    .ok (v :: vs)

/-- The chained-comparison loop of the `ast.Compare` branch: each comparator
is evaluated; the operator is checked against the allow-list unconditionally,
but (as in `result = result and OP(left, right)`) it is only applied while the
accumulated result is truthy. -/
def evalCmpRest (now : Int) (facts : Env) (left result : Value) :
    List (CmpOp × Expr) → Except String Value
  | [] => .ok result
  | (op, ce) :: rest => do
    let right ← evalNode now facts ce
    let result' ←
      if truthy result then applyCmpOp op left right
      else .ok result
    evalCmpRest now facts right result' rest

end

/-- `SafeExpressionEvaluator.evaluate`: parse the text (`none` = `ast.parse`
raised) and evaluate; every internal failure is caught and degrades to the
Python value `False`. -/
def evaluate (parsed : Option Expr) (now : Int) (facts : Env) : Value :=
  match parsed with
  | none => .vBool false
  | some e =>
    match evalNode now facts e with
    | .ok v => v
    | .error _ => .vBool false

/-- A loaded rule.  Expression texts are carried as parse outcomes
(`condition`); the action text is kept verbatim because `_execute_action`
parses it ad hoc by string splitting.  `priority` is `none` when the JSON
record has no `priority` key (the loader then sorts it as 999);
`activation_condition` is `none` when absent or empty (both skip the guard)
and `some p` for non-empty text with parse outcome `p`. -/
structure Rule where
  id : String
  name : String
  condition : Option Expr
  action : String
  priority : Option Int
  severity : Option String
  activation_condition : Option (Option Expr)

/-- One reasoning-trace record (`InferenceStep`); `timestamp` is the run's
wall clock. -/
structure InferenceStep where
  rule_id : String
  rule_name : String
  condition : Option Expr
  condition_result : Bool
  action : String
  timestamp : Int
  facts_used : Env

/-- Terminal output of one run (`InferenceResult`); the wall-clock
`execution_time` field is not modelled. -/
structure InferenceResult where
  conclusions : List String
  actions_taken : List String
  steps : List InferenceStep
  final_facts : Env

/-- The mutable engine state during one `forward_chaining` call. -/
structure RunState where
  facts : Env
  steps : List InferenceStep
  conclusions : List String
  actions_taken : List String

/-- The per-rule executed-flag key `f"rule_{id}_executed"`. -/
def flagKey (id : String) : String := "rule_" ++ id ++ "_executed"

/-- `_load_rules` after JSON decoding: `sorted(rules, key=lambda x:
x.get('priority', 999))`.  Python's stable `sorted` is modelled by
`List.insertionSort` with the non-strict key order, which is the same stable
sort. -/
def priorityKey (r : Rule) : Int := r.priority.getD 999

def load_rules (rules : List Rule) : List Rule :=
  List.insertionSort (fun a b => priorityKey a ≤ priorityKey b) rules

/-- Python `str.split(sep)[0]`: the text before the first separator. -/
def beforeFirst (s : String) (sep : Char) : String :=
  match pySplit s sep with
  | [] => ""
  | x :: _ => x

/-- Python `s.split(sep, 1)[1]`: the text after the first separator (only used
when the separator occurs). -/
def afterFirst (s : String) (sep : Char) : String :=
  match pySplit s sep with
  | [] => ""
  | [_] => ""
  | _ :: rest => String.intercalate (String.singleton sep) rest

/-- Python `s.rsplit(sep, 1)[0]`: the text before the last separator (the
whole string if the separator does not occur). -/
def beforeLast (s : String) (sep : Char) : String :=
  match pySplit s sep with
  | [] => ""
  | [x] => x
  | parts => String.intercalate (String.singleton sep) parts.dropLast

/-- `_extract_string_arg`: strip one matching pair of surrounding quotes. -/
def extract_string_arg (arg : String) : String :=
  let a := pyStrip arg
  if a.data.head? == some '"' && a.data.getLast? == some '"' then
    String.mk (a.data.drop 1).dropLast
  else if a.data.head? == some (Char.ofNat 39) && a.data.getLast? == some (Char.ofNat 39) then
    String.mk (a.data.drop 1).dropLast
  else a

/-- The function name `_execute_action` extracts:
`action.split('(')[0].strip()`. -/
def actionFuncName (action : String) : String := pyStrip (beforeFirst action '(')

/-- The argument text `_execute_action` extracts:
`action.split('(', 1)[1].rsplit(')', 1)[0]`. -/
def actionArgsStr (action : String) : String := beforeLast (afterFirst action '(') ')'

/-- The name/value pair a `set_fact(...)` action text denotes, exactly as
`_execute_action` would extract it (`none` when the text would not reach the
`set_fact` mutation: missing parentheses, another function name, or fewer than
two comma-separated arguments). -/
def parseSetFact (action : String) : Option (String × String) :=
  if strHasChar action '(' && strHasChar action ')' then
    if actionFuncName action = "set_fact" then
      match pySplit (actionArgsStr action) ',' with
      | [] => none
      | [_] => none
      | p0 :: rest =>
        some (extract_string_arg (pyStrip p0),
          extract_string_arg (pyStrip (String.intercalate "," rest)))
    else none
  else none

/-- The observation record `_add_observacion` appends. -/
def obsRecord (message : String) (r : Rule) (now : Int) : Value :=
  .vDict [("message", .vStr message), ("severity", .vStr (r.severity.getD "info")),
    ("rule_id", .vStr r.id), ("timestamp", .vStr (isoformat now))]

/-- `_add_observacion` as it affects the fact environment: initialize the
`observaciones` list if absent, then append; if the existing value is not a
list, `.append` raises, the caller's `except` catches it and nothing is
mutated (signalled by `none`). -/
def add_observacion (facts : Env) (message : String) (r : Rule) (now : Int) :
    Option Env :=
  match envGet "observaciones" facts with
  | none => some (envSet facts "observaciones" (.vList [obsRecord message r now]))
  | some (.vList xs) =>
    some (envSet facts "observaciones" (.vList (xs ++ [obsRecord message r now])))
  | some _ => none

/-- `InferenceEngine._execute_action`: parse `función(argumentos)` by string
splitting and dispatch; unrecognized or unparseable actions, and internal
exceptions, yield `None` (no mutation).  Returns the action-result message
(`none` = falsy) and the possibly updated fact environment. -/
def execute_action (action : String) (r : Rule) (facts : Env) (now : Int) :
    Option String × Env :=
  if strHasChar action '(' && strHasChar action ')' then
    let fn := actionFuncName action
    let argsStr := actionArgsStr action
    if fn = "add_observacion" then
      let message := extract_string_arg argsStr
      match add_observacion facts message r now with
      | some facts' => (some ("Observación agregada: " ++ message), facts')
      | none => (none, facts)
    else if fn = "mark_sanction" then
      (some "Sanción aplicada",
        envSet (envSet facts "sancion_aplicada" (.vBool true)) "sancion_motivo"
          (.vStr r.name))
    else if fn = "set_fact" then
      match pySplit argsStr ',' with
      | [] => (none, facts)
      | [_] => (none, facts)
      | p0 :: rest =>
        let factName := extract_string_arg (pyStrip p0)
        let factValue := extract_string_arg (pyStrip (String.intercalate "," rest))
        (some ("Hecho establecido: " ++ factName ++ " = " ++ factValue),
          envSet facts factName (.vStr factValue))
    else if fn = "require_approval" then
      (some "Requiere aprobación supervisor",
        envSet (envSet facts "requiere_aprobacion" (.vBool true)) "aprobacion_motivo"
          (.vStr r.name))
    else (none, facts)
  else (none, facts)

/-- The action texts on which `_execute_action` reaches no mutating dispatch
branch and returns `None`, read off its dispatch: the parentheses guard fails
(`'(' in action and ')' in action` is false), or the extracted function name
is none of `add_observacion`, `mark_sanction`, `set_fact`,
`require_approval` (the `else: Acción no reconocida` branch), or it is
`set_fact` but `args_str.split(',', 1)` yields fewer than two parts (the
`len(parts) == 2` guard falls through).  This is the malformed-or-unrecognized
class of C4: executing such an action touches no fact. -/
def actionUnhandled (action : String) : Bool :=
  if strHasChar action '(' && strHasChar action ')' then
    if actionFuncName action = "add_observacion" then false
    else if actionFuncName action = "mark_sanction" then false
    else if actionFuncName action = "set_fact" then
      match pySplit (actionArgsStr action) ',' with
      | [] => true
      | [_] => true
      | _ => false
    else if actionFuncName action = "require_approval" then false
    else true
  else true

/-- `InferenceEngine._should_evaluate_rule`: skip a rule whose executed flag
is truthy; otherwise evaluate the activation guard when present (its result is
used for truthiness by the caller's `if`). -/
def should_evaluate_rule (now : Int) (facts : Env) (r : Rule) : Bool :=
  if truthy ((envGet (flagKey r.id) facts).getD (.vBool false)) then false
  else
    match r.activation_condition with
    | some p => truthy (evaluate p now facts)
    | none => true

/-- `InferenceEngine._evaluate_rule`: evaluate the condition (never raises —
`evaluate` catches internally) and snapshot the scalar facts. -/
def evaluate_rule (now : Int) (facts : Env) (r : Rule) : InferenceStep :=
  { rule_id := r.id
    rule_name := r.name
    condition := r.condition
    condition_result := truthy (evaluate r.condition now facts)
    action := r.action
    timestamp := now
    facts_used := facts.filter (fun kv =>
      match kv.2 with
      | .vStr _ => true
      | .vInt _ => true
      | .vFloat _ => true
      | .vBool _ => true
      | .vNone => true
      | _ => false) }

/-- One pass of the inner `for rule in self.rules` loop: fire the first
eligible rule whose condition is truthy (append its step, execute its action,
record conclusion/action when the action result is truthy, set its executed
flag, `break`), or report that no rule fired. -/
def scanFire (now : Int) (st : RunState) : List Rule → Option RunState
  | [] => none
  | r :: rs =>
    if should_evaluate_rule now st.facts r then
      let step := evaluate_rule now st.facts r
      if step.condition_result then
        let (actionResult, facts') := execute_action r.action r st.facts now
        let fired := match actionResult with
          | some m => decide (m ≠ "")
          | none => false
        some
          { facts := envSet facts' (flagKey r.id) (.vBool true)
            steps := st.steps ++ [step]
            conclusions := st.conclusions ++ (if fired then [step.rule_name] else [])
            actions_taken := st.actions_taken ++
              (if fired then [(actionResult.getD "")] else []) }
      else scanFire now st rs
    else scanFire now st rs

/-- The outer `while iteration < max_iterations` loop: run scans until one
fires no rule or the iteration budget is exhausted. -/
def runLoop (rules : List Rule) (now : Int) : Nat → RunState → RunState
  | 0, st => st
  | n + 1, st =>
    match scanFire now st rules with
    | some st' => runLoop rules now n st'
    | none => st

/-- The injected facts at run start: `facts['now']`, then
`_add_special_functions` (`days_since`, `hours_since`, `is_weekend`,
`current_hour`). -/
def init_facts (initial : Env) (now : Int) : Env :=
  envSet (envSet (envSet (envSet (envSet initial "now" (.vDatetime now))
    "days_since" (.vFunc .daysSince))
    "hours_since" (.vFunc .hoursSince))
    "is_weekend" (.vFunc .isWeekend))
    "current_hour" (.vInt ((now.fdiv 3600).fmod 24))

/-- `InferenceEngine.forward_chaining` over an already loaded (sorted) rule
list; `max_iterations` defaults to 100 at the call sites. -/
def forward_chaining (rules : List Rule) (initial_facts : Env)
    (max_iterations : Nat) (now : Int) : InferenceResult :=
  let st0 : RunState :=
    { facts := init_facts initial_facts now
      steps := []
      conclusions := []
      actions_taken := [] }
  let fin := runLoop rules now max_iterations st0
  { conclusions := fin.conclusions
    actions_taken := fin.actions_taken
    steps := fin.steps
    final_facts := fin.facts }

/-- The fixed test fact environment `RulesManager.validate_condition` builds
(the deadline is `datetime.now()`, and the special functions are replaced by
constant test lambdas). -/
def validateTestFacts (now : Int) : Env :=
  [("motivo", .vStr "ART"), ("duracion", .vInt 5), ("ausencias_ultimo_mes", .vInt 2),
   ("certificate_uploaded", .vBool false), ("certificate_deadline", .vDatetime now),
   ("validation_status", .vStr "validated"), ("sector", .vStr "linea1"),
   ("current_hour", .vInt 14), ("hours_since", .vFunc .tHours24),
   ("days_since", .vFunc .tDays1), ("is_weekend", .vFunc .tWeekendFalse)]

/-- `RulesManager.validate_condition`.  `conditionText` is the raw text (for
the emptiness guard) and `parsed` its parse outcome.  Note the final `except`
branch of the source is unreachable: `SafeExpressionEvaluator.evaluate`
catches every internal failure and returns `False`. -/
def validate_condition (conditionText : String) (parsed : Option Expr) (now : Int) :
    Bool × String :=
  if pyStrip conditionText = "" then (false, "Condición no puede estar vacía")
  else
    match evaluate parsed now (validateTestFacts now) with
    | .vBool false => (true, "Condición válida (evalúa a False)")
    | .vBool true => (true, "Condición válida (evalúa a True)")
    | _ => (false, "La condición debe evaluar a True/False")

/-- A stored CBR case (`Case`); `facts` is the serialised snapshot
(timestamps already ISO strings). -/
structure Case where
  case_id : String
  facts : Env
  rules_applied : List String
  actions_taken : List String
  outcome : String
  feedback : Option String
  similarity_features : List (String × ℚ)
  timestamp : Int
  expert_validation : Bool

/-- A retrieval result (`SimilarCase`). -/
structure SimilarCase where
  case : Case
  similarity_score : ℚ
  matching_features : List String

/-- `CaseBasedLearning._load_feature_weights`, in dict insertion order. -/
def feature_weights : List (String × ℚ) :=
  [("motivo", 25/100), ("duracion", 20/100), ("ausencias_ultimo_mes", 15/100),
   ("validation_status", 10/100), ("certificate_uploaded", 15/100),
   ("sector", 10/100), ("deadline_exceeded", 5/100)]

/-- Lookup in a feature vector. -/
def featGet (k : String) : List (String × ℚ) → Option ℚ
  | [] => none
  | (k', v) :: rest => if k' = k then some v else featGet k rest

/-- `motivo_map.get(value, 0.0)` and `sector_map.get(value, 0.0)`: a string is
looked up (default 0.0), other hashable values are simply absent, and an
unhashable value (list/dict) raises a `TypeError`. -/
def hashedMapGet (m : List (String × ℚ)) (v : Value) : Except String ℚ :=
  match v with
  | .vStr s => .ok ((featGet s m).getD 0)
  | .vList _ => .error "TypeError: clave no hashable"
  | .vDict _ => .error "TypeError: clave no hashable"
  | _ => .ok 0

def motivo_map : List (String × ℚ) :=
  [("ART", 1), ("Licencia Enfermedad Personal", 2), ("Licencia Enfermedad Familiar", 3),
   ("Licencia por Fallecimiento Familiar", 4), ("Licencia por Matrimonio", 5),
   ("Licencia por Paternidad", 6), ("Licencia por Nacimiento", 7), ("Permiso Gremial", 8)]

def sector_map : List (String × ℚ) :=
  [("linea1", 1), ("linea2", 2), ("Mantenimiento", 3), ("RH", 4)]

/-- `CaseBasedLearning.extract_features`, in the source's dict insertion
order.  `float(...)` conversions and unhashable map keys can raise, which
propagates to the caller. -/
def extract_features (now : Int) (facts : Env) : Except String (List (String × ℚ)) := do
  let motivo ← hashedMapGet motivo_map ((envGet "motivo" facts).getD (.vStr ""))
  let duracion ← pyFloatQ ((envGet "duracion" facts).getD (.vInt 0))
  let ausencias ← pyFloatQ ((envGet "ausencias_ultimo_mes" facts).getD (.vInt 0))
  let certUp : ℚ :=
    if truthy ((envGet "certificate_uploaded" facts).getD (.vBool false)) then 1 else 0
  let valStatus : ℚ :=
    if pyEq ((envGet "validation_status" facts).getD .vNone) (.vStr "validated")
    then 1 else 1/2
  let deadlineExceeded : ℚ :=
    match envGet "certificate_deadline" facts with
    | some (.vDatetime t) => max 0 ((((now - t : Int) : ℚ) / 3600) / 24)
    | _ => 0
  let sector ← hashedMapGet sector_map ((envGet "sector" facts).getD (.vStr ""))
  .ok [("motivo", motivo), ("duracion", duracion), ("ausencias_ultimo_mes", ausencias),
    ("certificate_uploaded", certUp), ("validation_status", valStatus),
    ("deadline_exceeded", deadlineExceeded), ("sector", sector)]

/-- Per-feature similarity inside `calculate_similarity`: exact match for
`motivo` and the binary/categorical features, normalised numeric distance for
the rest (the `max .. 1.0` guards the zero denominator). -/
def featureSim (feature : String) (v1 v2 : ℚ) : ℚ :=
  if feature = "motivo" then (if v1 = v2 then 1 else 0)
  else if feature = "certificate_uploaded" || feature = "validation_status" then
    (if v1 = v2 then 1 else 0)
  else 1 - |v1 - v2| / max (max v1 v2) 1

/-- `CaseBasedLearning.calculate_similarity`: weighted sum over the features
present in both vectors, divided by the total weight of those features. -/
def calculate_similarity (f1 f2 : List (String × ℚ)) : ℚ :=
  if f1.isEmpty || f2.isEmpty then 0
  else
    let acc := feature_weights.foldl
      (fun (sw : ℚ × ℚ) fw =>
        match featGet fw.1 f1, featGet fw.1 f2 with
        | some v1, some v2 => (sw.1 + featureSim fw.1 v1 v2 * fw.2, sw.2 + fw.2)
        | _, _ => sw)
      (0, 0)
    if 0 < acc.2 then acc.1 / acc.2 else 0

/-- The matching-feature report of `find_similar_cases`: exact match for
`motivo`, distance below 0.1 for every other feature present in both. -/
def matchingFeatures (cf caseF : List (String × ℚ)) : List String :=
  feature_weights.foldl
    (fun acc fw =>
      match featGet fw.1 cf, featGet fw.1 caseF with
      | some v1, some v2 =>
        if fw.1 = "motivo" then (if v1 = v2 then acc ++ [fw.1] else acc)
        else if |v1 - v2| < 1/10 then acc ++ [fw.1]
        else acc
      | _, _ => acc)
    []

/-- The candidate list `find_similar_cases` accumulates (in stored-case
order): every case whose similarity to the query features reaches
`min_similarity`. -/
def similarCandidates (cf : List (String × ℚ)) (minSimilarity : ℚ)
    (cases : List Case) : List SimilarCase :=
  cases.foldl
    (fun acc c =>
      let s := calculate_similarity cf c.similarity_features
      if minSimilarity ≤ s then
        acc ++ [{ case := c, similarity_score := s,
                  matching_features := matchingFeatures cf c.similarity_features }]
      else acc)
    []

/-- `CaseBasedLearning.find_similar_cases`: empty store short-circuits;
otherwise extract the query features (may raise), filter by
`min_similarity`, sort by similarity descending (Python's stable sort,
modelled by `insertionSort` with the non-strict reversed order) and truncate
to `top_k`. -/
def find_similar_cases (cases : List Case) (current_facts : Env)
    (top_k : Nat) (min_similarity : ℚ) (now : Int) :
    Except String (List SimilarCase) :=
  if cases.isEmpty then .ok []
  else do
    let cf ← extract_features now current_facts
    let sims := similarCandidates cf min_similarity cases
    .ok ((List.insertionSort
      (fun a b => b.similarity_score ≤ a.similarity_score) sims).take top_k)

mutual

/-- `json.dumps` of a value: serialisable values render deterministically,
`datetime` (when it survives nested inside a container) and functions raise
`TypeError`.  String escaping is abstracted and nested dict keys are encoded
in insertion order (Python would sort them under `sort_keys`); every claim
depends only on this encoding being a fixed deterministic function. -/
def encodeValue : Value → Except String String
  | .vNone => .ok "null"
  | .vBool b => .ok (if b then "true" else "false")
  | .vInt n => .ok (toString n)
  | .vFloat q => .ok (ratStr q)
  | .vStr s => .ok ("\"" ++ s ++ "\"")
  | .vList xs => do
    let parts ← encodeList xs
    .ok ("[" ++ String.intercalate ", " parts ++ "]")
  | .vDict xs => do
    let parts ← encodeEntries xs
    .ok ("\x7b" ++ String.intercalate ", " parts ++ "\x7d")
  | .vDatetime _ => .error "TypeError: datetime no es serializable JSON"
  | .vFunc _ => .error "TypeError: funcion no es serializable JSON"

def encodeList : List Value → Except String (List String)
  | [] => .ok []
  | x :: xs => do
    let s ← encodeValue x
    let rest ← encodeList xs
    .ok (s :: rest)

def encodeEntries : List (String × Value) → Except String (List String)
  | [] => .ok []
  | (k, v) :: xs => do
    let s ← encodeValue v
    let rest ← encodeEntries xs
    .ok (("\"" ++ k ++ "\": " ++ s) :: rest)

end

/-- `json.dumps` of a list of strings. -/
def encodeStrList (xs : List String) : String :=
  "[" ++ String.intercalate ", " (xs.map (fun s => "\"" ++ s ++ "\"")) ++ "]"

/-- `json.dumps` of a feature vector. -/
def encodeFeats (fs : List (String × ℚ)) : String :=
  "\x7b" ++
    String.intercalate ", " (fs.map (fun kv => "\"" ++ kv.1 ++ "\": " ++ ratStr kv.2)) ++
    "\x7d"

/-- The datetime-to-ISO-string conversion `store_case` applies to the
top-level fact values before serialising. -/
def serializable_facts (facts : Env) : Env :=
  facts.map (fun kv =>
    match kv.2 with
    | .vDatetime t => (kv.1, Value.vStr (isoformat t))
    | v => (kv.1, v))

/-- The canonical content string hashed into the case id:
`json.dumps({'facts': serializable_facts, 'rules': sorted(rules_applied),
'actions': sorted(actions_taken)}, sort_keys=True)` — top-level keys in
alphabetical order, fact keys sorted, rule/action lists sorted. -/
def caseContent (sfacts : Env) (rules actions : List String) :
    Except String String := do
  let sortedFacts := List.insertionSort (fun a b => strLeB a.1 b.1 = true) sfacts
  let factParts ← encodeEntries sortedFacts
  .ok ("\x7b\"actions\": " ++
    encodeStrList (List.insertionSort (fun a b => strLeB a b = true) actions) ++
    ", \"facts\": \x7b" ++ String.intercalate ", " factParts ++
    "\x7d, \"rules\": " ++
    encodeStrList (List.insertionSort (fun a b => strLeB a b = true) rules) ++ "\x7d")

/-- Hexadecimal rendering of the low `w` nibbles of `n`. -/
def hexChars : Nat → Nat → List Char
  | 0, _ => []
  | w + 1, n =>
    hexChars w (n / 16) ++
      [Char.ofNat (if n % 16 < 10 then 48 + n % 16 else 87 + n % 16)]

/-- `hashlib.md5(content).hexdigest()[:12]`, modelled by a fixed deterministic
digest of the content string rendered as 12 hex characters; every claim
depends only on determinism, not on the MD5 bit pattern. -/
def md5hex12 (s : String) : String :=
  String.mk (hexChars 12 (s.data.foldl (fun h c => (h * 131 + c.toNat) % 2 ^ 48) 7))

/-- One row of the `cases` table as `store_case` writes it. -/
structure DbRow where
  facts_json : String
  rules_json : String
  actions_json : String
  outcome : String
  features_json : String
  timestamp : String
  expert_validation : Bool

/-- The CBR engine state: the in-memory case list and the persisted `cases`
table keyed by the UNIQUE `case_id` column. -/
structure CBRState where
  cases : List Case
  db : List (String × DbRow)

/-- `INSERT OR REPLACE` on the UNIQUE `case_id` key: the conflicting row (if
any) is deleted and the new row inserted. -/
def dbUpsert (db : List (String × DbRow)) (cid : String) (row : DbRow) :
    List (String × DbRow) :=
  db.filter (fun e => !(e.1 == cid)) ++ [(cid, row)]

/-- `CaseBasedLearning.store_case`: serialise the facts, hash the canonical
content into the case id, extract features (either step may raise, before
anything is stored), append the case to the in-memory list, and upsert the
row into the database (DB errors are swallowed by the source's `try`, so the
model's store always succeeds once the id is computed). -/
def store_case (st : CBRState) (facts : Env) (rules_applied actions_taken : List String)
    (outcome : String) (now : Int) : Except String (String × CBRState) := do
  let content ← caseContent (serializable_facts facts) rules_applied actions_taken
  let cid := md5hex12 content
  let feats ← extract_features now facts
  let factParts ← encodeEntries (serializable_facts facts)
  let newCase : Case :=
    { case_id := cid, facts := serializable_facts facts, rules_applied := rules_applied,
      actions_taken := actions_taken, outcome := outcome, feedback := none,
      similarity_features := feats, timestamp := now, expert_validation := false }
  let row : DbRow :=
    { facts_json := "\x7b" ++ String.intercalate ", " factParts ++ "\x7d"
      rules_json := encodeStrList rules_applied
      actions_json := encodeStrList actions_taken
      outcome := outcome
      features_json := encodeFeats feats
      timestamp := isoformat now
      expert_validation := false }
  .ok (cid, { cases := st.cases ++ [newCase], db := dbUpsert st.db cid row })

/-- `defaultdict` accumulation `counts[k] += w` (insertion order of first
occurrence is preserved, as for a Python dict). -/
def upsertAdd (l : List (String × ℚ)) (k : String) (w : ℚ) : List (String × ℚ) :=
  match l with
  | [] => [(k, w)]
  | (k', v) :: rest =>
    if k' = k then (k', v + w) :: rest else (k', v) :: upsertAdd rest k w

/-- The similarity-weighted outcome votes of `get_recommendations`, in
neighbor order. -/
def outcomeVotes (sims : List SimilarCase) : List (String × ℚ) :=
  sims.foldl (fun acc sc => upsertAdd acc sc.case.outcome sc.similarity_score) []

/-- The similarity-weighted action votes of `get_recommendations`. -/
def actionVotes (sims : List SimilarCase) : List (String × ℚ) :=
  sims.foldl
    (fun acc sc =>
      sc.case.actions_taken.foldl (fun a act => upsertAdd a act sc.similarity_score) acc)
    []

/-- `sum` of the neighbor similarity scores. -/
def totalSimilarity (sims : List SimilarCase) : ℚ :=
  sims.foldl (fun a sc => a + sc.similarity_score) 0

/-- Python `max(items, key=lambda x: x[1])` over a nonempty item list: the
first item with maximal second component. -/
def pyMaxBySnd (x : String × ℚ) (rest : List (String × ℚ)) : String × ℚ :=
  rest.foldl (fun acc y => if acc.2 < y.2 then y else acc) x

/-- `max(outcome_counts.items(), key=...)`; the empty case is unreachable for
a nonempty neighbor list (Python `max` would raise `ValueError`). -/
def mostLikelyOutcome (sims : List SimilarCase) : String × ℚ :=
  match outcomeVotes sims with
  | [] => ("", 0)
  | v :: rest => pyMaxBySnd v rest

/-- Round-half-even at two decimals and render, as Python's `:.2f`. -/
def fmt2 (q : ℚ) : String :=
  let m := q * 100
  let fl := m.floor
  let frac := m - (fl : ℚ)
  let r : Int :=
    if frac < 1/2 then fl
    else if 1/2 < frac then fl + 1
    else if fl % 2 = 0 then fl else fl + 1
  let sign := if r < 0 then "-" else ""
  let a := r.natAbs
  sign ++ toString (a / 100) ++ "." ++
    (if a % 100 < 10 then "0" else "") ++ toString (a % 100)

/-- One entry of the returned `recommendations` list. -/
structure RecItem where
  type : String
  suggestion : String
  confidence : ℚ
  reasoning : String

/-- One entry of the returned `similar_cases` summary list. -/
structure SimilarSummary where
  case_id : String
  similarity : ℚ
  outcome : String
  matching_features : List String
  timestamp : String

/-- The dict `get_recommendations` returns. -/
structure Recommendation where
  recommendations : List RecItem
  confidence : ℚ
  similar_cases_count : Nat
  reasoning : String
  similar_cases : List SimilarSummary

/-- The aggregation/recommendation phase of
`CaseBasedLearning.get_recommendations`, as a function of the retrieved
neighbor list: aggregate similarity-weighted votes, predict the modal outcome
with `confidence = vote / total similarity`, and suggest the top-voted
action.  (The `top_rules` aggregation of the source is computed but never
used in the returned dict, and is omitted.) -/
def recommendFromNeighbors (sims : List SimilarCase) : Recommendation :=
  if sims.isEmpty then
    { recommendations := [], confidence := 0, similar_cases_count := 0,
      reasoning := "No se encontraron casos similares suficientes",
      similar_cases := [] }
  else
    let total := totalSimilarity sims
    let ml := mostLikelyOutcome sims
    let confidence := ml.2 / total
    let topActions :=
      (List.insertionSort (fun a b => b.2 ≤ a.2) (actionVotes sims)).take 3
    let recs : List RecItem :=
      [{ type := "outcome_prediction",
         suggestion := "Outcome más probable: " ++ ml.1,
         confidence := confidence,
         reasoning := "Basado en " ++ toString sims.length ++ " casos similares" }] ++
      (match topActions with
       | [] => []
       | a :: _ =>
         [{ type := "action_suggestion",
            suggestion := "Acción recomendada: " ++ a.1,
            confidence := a.2 / total,
            reasoning := "Presente en casos similares con alta frecuencia" }]) ++
      (if 8/10 < confidence then
         [{ type := "pattern_alert",
            suggestion := "Patrón muy consistente detectado",
            confidence := confidence,
            reasoning := "Los casos similares muestran un resultado muy consistente" }]
       else [])
    { recommendations := recs
      confidence := confidence
      similar_cases_count := sims.length
      reasoning := "Análisis basado en " ++ toString sims.length ++
        " casos con similitud promedio " ++ fmt2 (total / sims.length)
      similar_cases := sims.map (fun sc =>
        { case_id := sc.case.case_id, similarity := sc.similarity_score,
          outcome := sc.case.outcome,
          matching_features := sc.matching_features,
          timestamp := isoformat sc.case.timestamp }) }

/-- `CaseBasedLearning.get_recommendations`: retrieve the top-5 neighbors at
`min_similarity = 0.4` (an `extract_features` failure propagates), then
aggregate them with `recommendFromNeighbors`. -/
def get_recommendations (cases : List Case) (current_facts : Env) (now : Int) :
    Except String Recommendation := do
  let sims ← find_similar_cases cases current_facts 5 (4/10) now
  .ok (recommendFromNeighbors sims)

/-- Similarity-weighted vote of one outcome label over a neighbor list (the
sum `get_recommendations` accumulates into `outcome_counts[o]`). -/
def voteFor (o : String) : List SimilarCase → ℚ
  | [] => 0
  | sc :: rest =>
    (if sc.case.outcome = o then sc.similarity_score else 0) + voteFor o rest

/-- Truthiness of the per-rule executed flag, exactly as
`_should_evaluate_rule` reads it (`facts.get(flag, False)`). -/
def flagTruthy (i : String) (facts : Env) : Bool :=
  truthy ((envGet (flagKey i) facts).getD (.vBool false))

/-! Concrete scenario data used by counterexamples and witnesses. -/

/-- A rule with the given id, priority, condition and action and no
activation guard. -/
def mkRule (id : String) (p : Int) (c : Option Expr) (a : String) : Rule :=
  { id := id, name := "Regla " ++ id, condition := c, action := a,
    priority := some p, severity := none, activation_condition := none }

/-- The action text `set_fact('rule_r1_executed', '')`. -/
def sfClearAction : String :=
  "set_fact(" ++ sq ++ "rule_r1_executed" ++ sq ++ ", " ++ sq ++ sq ++ ")"

/-- The action text `set_fact('x', 5)`. -/
def sfTypedAction : String := "set_fact(" ++ sq ++ "x" ++ sq ++ ", 5)"

def cexR1 : Rule := mkRule "r1" 1 (some (.const (.vBool true))) "noop("

def cexR2 : Rule := mkRule "r2" 2 (some (.const (.vBool true))) sfClearAction

def demoRule : Rule := mkRule "w" 1 (some (.const (.vBool true))) "foo("

/-- A rule with the well-formed but unrecognized action call `foo()`: the
dispatch reaches the `Acción no reconocida` branch. -/
def demoRuleUnrec : Rule := mkRule "u" 1 (some (.const (.vBool true))) "foo()"

/-- The action text `set_fact('a')`: recognized name, but a single argument,
so the `len(parts) == 2` guard falls through. -/
def sfOneArgAction : String := "set_fact(" ++ sq ++ "a" ++ sq ++ ")"

def demoRuleArity : Rule := mkRule "v" 1 (some (.const (.vBool true))) sfOneArgAction

/-- Stored feature vector at similarity 0.9 to `demoQueryFacts`. -/
def approvedFeatures : List (String × ℚ) :=
  [("motivo", 1), ("duracion", 1), ("ausencias_ultimo_mes", 3),
   ("certificate_uploaded", 0), ("validation_status", 1),
   ("deadline_exceeded", 0), ("sector", 1)]

/-- Stored feature vector at similarity 0.4 to `demoQueryFacts`. -/
def escalatedFeatures : List (String × ℚ) :=
  [("motivo", 8), ("duracion", 2), ("ausencias_ultimo_mes", 0),
   ("certificate_uploaded", 0), ("validation_status", 1),
   ("deadline_exceeded", 0), ("sector", 0)]

def demoQueryFacts : Env :=
  [("motivo", .vStr "ART"), ("duracion", .vInt 1), ("ausencias_ultimo_mes", .vInt 1),
   ("certificate_uploaded", .vBool false), ("validation_status", .vStr "validated"),
   ("sector", .vStr "linea1")]

/-- `extract_features` of `demoQueryFacts` (at any wall clock: no deadline
fact is present). -/
def demoQueryFeatures : List (String × ℚ) :=
  [("motivo", 1), ("duracion", 1), ("ausencias_ultimo_mes", 1),
   ("certificate_uploaded", 0), ("validation_status", 1),
   ("deadline_exceeded", 0), ("sector", 1)]

def approvedCase : Case :=
  { case_id := "c1", facts := [], rules_applied := [], actions_taken := ["approve"],
    outcome := "approved", feedback := none, similarity_features := approvedFeatures,
    timestamp := 0, expert_validation := false }

def escalatedCase : Case :=
  { case_id := "c2", facts := [], rules_applied := [], actions_taken := ["escalate"],
    outcome := "escalated", feedback := none, similarity_features := escalatedFeatures,
    timestamp := 0, expert_validation := false }

/-- The neighbor list `find_similar_cases` retrieves for `demoQueryFacts`
against the two demo cases (similarities 0.9 and 0.4, in that order). -/
def demoSims : List SimilarCase :=
  [⟨approvedCase, 9/10,
    ["motivo", "duracion", "validation_status", "certificate_uploaded",
     "sector", "deadline_exceeded"]⟩,
   ⟨escalatedCase, 2/5,
    ["validation_status", "certificate_uploaded", "deadline_exceeded"]⟩]

/-- The CBR state after storing `demoQueryFacts` once into an empty store. -/
def demoStored1 : CBRState :=
  match store_case ⟨[], []⟩ demoQueryFacts ["rA", "rB"] ["a1"] "approved" 5 with
  | .ok p => p.2
  | .error _ => ⟨[], []⟩

/-! Helper lemmas about the environment model. -/

theorem envGet_envSet_self (e : Env) (k : String) (v : Value) :
    envGet k (envSet e k v) = some v := by
  induction e with
  | nil => simp [envGet, envSet]
  | cons kv rest ih =>
    by_cases h : kv.1 = k
    · simp [envGet, envSet, h]
    · simp [envGet, envSet, h, ih]

theorem envGet_envSet_ne (e : Env) (k k' : String) (v : Value) (h : k' ≠ k) :
    envGet k (envSet e k' v) = envGet k e := by
  have h2 : ¬ k = k' := fun hh => h hh.symm
  induction e with
  | nil => simp [envGet, envSet, h]
  | cons kv rest ih =>
    by_cases hk : kv.1 = k'
    · have hkk : ¬ kv.1 = k := by rw [hk]; exact h
      simp [envGet, envSet, hk, hkk, h, h2]
    · by_cases hk2 : kv.1 = k
      · simp [envGet, envSet, hk, hk2, h, h2, ih]
      · simp [envGet, envSet, hk, hk2, h, h2, ih]

/-! Reduction lemmas for the `Except` monad operations (used to evaluate the
embedded do-notation in proofs). -/

theorem ebind_ok {α β : Type} (a : α) (f : α → Except String β) :
    (Except.ok a >>= f) = f a := rfl

theorem ebind_error {α β : Type} (e : String) (f : α → Except String β) :
    ((Except.error e : Except String α) >>= f) = Except.error e := rfl

theorem emap_ok {α β : Type} (g : α → β) (a : α) :
    Except.map g (Except.ok a : Except String α) = Except.ok (g a) := rfl

theorem emap_error {α β : Type} (g : α → β) (e : String) :
    Except.map g (Except.error e : Except String α) = Except.error e := rfl

/-- C10: the injected special functions `days_since` and `hours_since` never
raise on an absent timestamp: every falsy argument (such as the null value an
unknown identifier resolves to) yields the sentinel `999`, so a condition
`days_since(x) > N` with `N < 999` evaluates true when the fact `x` is
missing from the environment. -/
theorem days_hours_since_sentinel (now : Int) (v : Value) (hv : truthy v = false)
    (n : Int) (hn : n < 999) :
    applyFunc .daysSince now [v] = .ok (.vInt 999) ∧
    applyFunc .hoursSince now [v] = .ok (.vInt 999) ∧
    evaluate
      (some (.compare (.call (.name "days_since") [.name "x"])
        [(.gt, .const (.vInt n))]))
      now (init_facts [] now) = .vBool true := by
  refine ⟨by simp [applyFunc, hv], by simp [applyFunc, hv], ?_⟩
  have hq : ((n : ℚ) < (999 : ℚ)) := by exact_mod_cast hn
  have hd : decide ((n : ℚ) < (999 : ℚ)) = true := decide_eq_true hq
  simp [evaluate, evalNode, evalExprList, evalCmpRest, init_facts, envSet, envGet,
    builtinNames, applyFunc, truthy, applyCmpOp, pyLtB, toRat?, boolCombine,
    ebind_ok, ebind_error, emap_ok, hd]

/-- Witness for C10 at the concrete input `v = None`, `N = 30`. -/
theorem days_hours_since_sentinel_witness :
    applyFunc .daysSince 0 [.vNone] = .ok (.vInt 999) ∧
    applyFunc .hoursSince 0 [.vNone] = .ok (.vInt 999) ∧
    evaluate
      (some (.compare (.call (.name "days_since") [.name "x"])
        [(.gt, .const (.vInt 30))]))
      0 (init_facts [] 0) = .vBool true :=
  days_hours_since_sentinel 0 .vNone rfl 30 (by decide)

/-- C2: `evaluate` is a total function — it never propagates an exception to
its caller: either the internal parse/evaluation pipeline succeeds and the
resulting value is returned, or the call degrades to the Python value
`False`.  In particular unparseable text (`none`), attribute access,
and arithmetic (`ast.BinOp`, absent from `_eval_node`) all degrade to
`False`. -/
theorem evaluate_never_raises (p : Option Expr) (now : Int) (facts : Env)
    (obj : Expr) (fld : String) (k : String) (l r : Expr) :
    (evaluate p now facts = .vBool false ∨
      ∃ e v, p = some e ∧ evalNode now facts e = .ok v ∧ evaluate p now facts = v) ∧
    evaluate none now facts = .vBool false ∧
    evaluate (some (.attr obj fld)) now facts = .vBool false ∧
    evaluate (some (.binOp k l r)) now facts = .vBool false := by
  refine ⟨?_, rfl, by simp [evaluate, evalNode], by simp [evaluate, evalNode]⟩
  match p with
  | none => exact Or.inl rfl
  | some e =>
    match h : evalNode now facts e with
    | .ok v => exact Or.inr ⟨e, v, rfl, h, by simp [evaluate, h]⟩
    | .error msg => exact Or.inl (by simp [evaluate, h])

/-- C5 (evidence of the code bug): the unparseable condition text `foo(`
(on which `ast.parse` raises a `SyntaxError`) is ACCEPTED by
`validate_condition` with the message `Condición válida (evalúa a False)`,
because the runtime evaluator swallows the parse failure and returns `False`;
the source's `except` branch that would reject it is unreachable. -/
theorem validate_condition_accepts_unparseable :
    validate_condition "foo(" none 0 = (true, "Condición válida (evalúa a False)") := by
  rfl

/-- C9 (counterexample): the action `set_fact('x', 5)` does NOT store the
integer `5`: it stores the argument text as the string `"5"`, so a later
condition `x == 5` observes `False` while `x == '5'` observes `True`. -/
theorem set_fact_discards_type :
    envGet "x" (execute_action sfTypedAction demoRule [] 0).2 = some (.vStr "5") ∧
    envGet "x" (execute_action sfTypedAction demoRule [] 0).2 ≠ some (.vInt 5) ∧
    evaluate (some (.compare (.name "x") [(.eq, .const (.vInt 5))])) 0
      (execute_action sfTypedAction demoRule [] 0).2 = .vBool false ∧
    evaluate (some (.compare (.name "x") [(.eq, .const (.vStr "5"))])) 0
      (execute_action sfTypedAction demoRule [] 0).2 = .vBool true := by
  refine ⟨rfl, ?_, rfl, rfl⟩
  intro h
  rw [show envGet "x" (execute_action sfTypedAction demoRule [] 0).2
      = some (.vStr "5") from rfl] at h
  simp at h

/-- C9 (amended): for every action text that `_execute_action` parses as a
`set_fact` call, the extracted name/value TEXTS are stored — the value is
always a string (surrounding quotes stripped), never a typed value — and a
later lookup of the name observes that string. -/
theorem set_fact_stores_text (a : String) (r : Rule) (facts : Env) (now : Int)
    (n v : String) (h : parseSetFact a = some (n, v)) :
    execute_action a r facts now =
      (some ("Hecho establecido: " ++ n ++ " = " ++ v), envSet facts n (.vStr v)) ∧
    envGet n (execute_action a r facts now).2 = some (.vStr v) := by
  unfold parseSetFact at h
  by_cases hc : strHasChar a '(' && strHasChar a ')'
  · rw [if_pos hc] at h
    by_cases hf : actionFuncName a = "set_fact"
    · rw [if_pos hf] at h
      unfold execute_action
      rw [if_pos hc, hf]
      match hs : pySplit (actionArgsStr a) ',' with
      | [] => rw [hs] at h; exact absurd h (by simp)
      | [x] => rw [hs] at h; exact absurd h (by simp)
      | p0 :: p1 :: rest =>
        rw [hs] at h
        simp only [Option.some.injEq, Prod.mk.injEq] at h
        obtain ⟨hn, hv⟩ := h
        simp only [hs]
        constructor
        · simp [hn, hv]
        · simp [hn, hv, envGet_envSet_self]
    · rw [if_neg hf] at h; exact absurd h (by simp)
  · rw [if_neg hc] at h; exact absurd h (by simp)

/-- Witness for C9's amended theorem at the concrete action
`set_fact('x', 5)`. -/
theorem set_fact_stores_text_witness :
    execute_action sfTypedAction demoRule [] 0 =
      (some ("Hecho establecido: " ++ "x" ++ " = " ++ "5"),
        envSet [] "x" (.vStr "5")) ∧
    envGet "x" (execute_action sfTypedAction demoRule [] 0).2 = some (.vStr "5") :=
  set_fact_stores_text sfTypedAction demoRule [] 0 "x" "5" rfl

/-! Helper lemmas about the engine loop. -/

theorem runLoop_succ (rules : List Rule) (now : Int) (n : Nat) (st : RunState) :
    runLoop rules now (n + 1) st =
      match scanFire now st rules with
      | some st' => runLoop rules now n st'
      | none => st := rfl

theorem scanFire_steps (now : Int) (st st' : RunState) (rules : List Rule)
    (h : scanFire now st rules = some st') : ∃ s, st'.steps = st.steps ++ [s] := by
  induction rules with
  | nil => simp [scanFire] at h
  | cons r rs ih =>
    by_cases hse : should_evaluate_rule now st.facts r
    · by_cases hcr : (evaluate_rule now st.facts r).condition_result
      · refine ⟨evaluate_rule now st.facts r, ?_⟩
        simp only [scanFire, hse, if_true, hcr] at h
        cases h
        rfl
      · simp only [scanFire, hse, if_true, hcr, if_false] at h
        exact ih h
    · simp only [scanFire, hse, if_false] at h
      exact ih h

theorem runLoop_steps_mono (rules : List Rule) (now : Int) (n : Nat) (st : RunState) :
    ∃ t, (runLoop rules now n st).steps = st.steps ++ t := by
  induction n generalizing st with
  | zero => exact ⟨[], by simp [runLoop]⟩
  | succ n ih =>
    cases h : scanFire now st rules with
    | none => exact ⟨[], by simp [runLoop, h]⟩
    | some st' =>
      obtain ⟨s, hs⟩ := scanFire_steps now st st' rules h
      obtain ⟨t, ht⟩ := ih st'
      exact ⟨s :: t, by simp [runLoop, h, ht, hs]⟩

theorem runLoop_steps_le (rules : List Rule) (now : Int) (n : Nat) (st : RunState) :
    (runLoop rules now n st).steps.length ≤ st.steps.length + n := by
  induction n generalizing st with
  | zero => simp [runLoop]
  | succ n ih =>
    cases h : scanFire now st rules with
    | none => simp [runLoop, h]
    | some st' =>
      obtain ⟨s, hs⟩ := scanFire_steps now st st' rules h
      have hstep : runLoop rules now (n + 1) st = runLoop rules now n st' := by
        rw [runLoop_succ, h]
      rw [hstep]
      have h2 := ih st'
      rw [hs] at h2
      simp only [List.length_append, List.length_singleton] at h2
      omega

/-- `_execute_action` on every malformed or unrecognized action text: when the
text reaches no mutating dispatch branch (missing parenthesis, unrecognized
function name, or a `set_fact` with fewer than two arguments), it returns
`None` and leaves the fact environment untouched. -/
theorem execute_action_unhandled (a : String) (r : Rule) (facts : Env) (now : Int)
    (h : actionUnhandled a = true) :
    execute_action a r facts now = (none, facts) := by
  unfold actionUnhandled at h
  by_cases hp : (strHasChar a '(' && strHasChar a ')') = true
  case neg =>
    unfold execute_action
    rw [if_neg hp]
  case pos =>
    rw [if_pos hp] at h
    simp only [execute_action, if_pos hp]
    by_cases h1 : actionFuncName a = "add_observacion"
    · rw [if_pos h1] at h
      simp at h
    rw [if_neg h1] at h
    rw [if_neg h1]
    by_cases h2 : actionFuncName a = "mark_sanction"
    · rw [if_pos h2] at h
      simp at h
    rw [if_neg h2] at h
    rw [if_neg h2]
    by_cases h3 : actionFuncName a = "set_fact"
    · rw [if_pos h3] at h
      rw [if_pos h3]
      cases hm : pySplit (actionArgsStr a) ',' with
      | nil => rfl
      | cons p0 rest =>
        cases rest with
        | nil => rfl
        | cons p1 rest2 =>
          rw [hm] at h
          simp at h
    rw [if_neg h3] at h
    rw [if_neg h3]
    by_cases h4 : actionFuncName a = "require_approval"
    · rw [if_pos h4] at h
      simp at h
    rw [if_neg h4]

/-- C4: every rule whose condition is truthy but whose action text is
malformed or unrecognized — the parentheses guard fails (e.g. `foo(`), the
function name matches no dispatch branch (e.g. `foo()`), or a `set_fact` has
fewer than two arguments (e.g. `set_fact('a')`) — raises nothing, mutates no
fact, records an InferenceStep with `condition_result = true`, contributes no
action result, and the rule is still marked fired: the final facts are
exactly the initial injected facts plus the executed flag. -/
theorem malformed_action_fires_without_mutation (env : Env) (r : Rule) (now : Int)
    (ha : actionUnhandled r.action = true)
    (he : should_evaluate_rule now (init_facts env now) r = true)
    (hc : truthy (evaluate r.condition now (init_facts env now)) = true) :
    (forward_chaining [r] env 100 now).steps.length = 1 ∧
    (∀ s ∈ (forward_chaining [r] env 100 now).steps,
      s.condition_result = true ∧ s.rule_id = r.id) ∧
    (forward_chaining [r] env 100 now).actions_taken = [] ∧
    (forward_chaining [r] env 100 now).conclusions = [] ∧
    (forward_chaining [r] env 100 now).final_facts =
      envSet (init_facts env now) (flagKey r.id) (.vBool true) := by
  have hexec : execute_action r.action r (init_facts env now) now =
      (none, init_facts env now) :=
    execute_action_unhandled r.action r (init_facts env now) now ha
  have hcr : (evaluate_rule now (init_facts env now) r).condition_result = true := hc
  set st0 : RunState :=
    { facts := init_facts env now, steps := [], conclusions := [], actions_taken := [] }
  set st1 : RunState :=
    { facts := envSet (init_facts env now) (flagKey r.id) (.vBool true)
      steps := [evaluate_rule now (init_facts env now) r]
      conclusions := []
      actions_taken := [] }
  have h1 : scanFire now st0 [r] = some st1 := by
    simp only [scanFire, st0, he, if_true, hcr, hexec]
    rfl
  have h2 : scanFire now st1 [r] = none := by
    have hfl : should_evaluate_rule now st1.facts r = false := by
      unfold should_evaluate_rule
      rw [envGet_envSet_self]
      simp [truthy]
    simp [scanFire, hfl]
  have h3 : runLoop [r] now 100 st0 = st1 := by
    rw [show (100 : Nat) = 99 + 1 from rfl, runLoop_succ, h1]
    show runLoop [r] now 99 st1 = st1
    rw [show (99 : Nat) = 98 + 1 from rfl, runLoop_succ, h2]
  have hres : forward_chaining [r] env 100 now =
      { conclusions := [], actions_taken := [],
        steps := [evaluate_rule now (init_facts env now) r],
        final_facts := envSet (init_facts env now) (flagKey r.id) (.vBool true) } := by
    simp only [forward_chaining, h3]
  rw [hres]
  refine ⟨rfl, ?_, rfl, rfl, rfl⟩
  intro s hs
  rw [List.mem_singleton] at hs
  subst hs
  exact ⟨hcr, rfl⟩

/-- Witness for C4 at three concrete rules, one per unhandled shape: action
`foo(` (parentheses guard fails), action `foo()` (unrecognized function
name), and action `set_fact('a')` (a `set_fact` with a single argument), all
with condition `True` on the empty caller environment. -/
theorem malformed_action_fires_without_mutation_witness :
    ((forward_chaining [demoRule] [] 100 0).steps.length = 1 ∧
      (∀ s ∈ (forward_chaining [demoRule] [] 100 0).steps,
        s.condition_result = true ∧ s.rule_id = demoRule.id) ∧
      (forward_chaining [demoRule] [] 100 0).actions_taken = [] ∧
      (forward_chaining [demoRule] [] 100 0).conclusions = [] ∧
      (forward_chaining [demoRule] [] 100 0).final_facts =
        envSet (init_facts [] 0) (flagKey demoRule.id) (.vBool true)) ∧
    ((forward_chaining [demoRuleUnrec] [] 100 0).actions_taken = [] ∧
      (forward_chaining [demoRuleUnrec] [] 100 0).final_facts =
        envSet (init_facts [] 0) (flagKey demoRuleUnrec.id) (.vBool true)) ∧
    ((forward_chaining [demoRuleArity] [] 100 0).actions_taken = [] ∧
      (forward_chaining [demoRuleArity] [] 100 0).final_facts =
        envSet (init_facts [] 0) (flagKey demoRuleArity.id) (.vBool true)) :=
  ⟨malformed_action_fires_without_mutation [] demoRule 0 rfl rfl rfl,
   ⟨(malformed_action_fires_without_mutation [] demoRuleUnrec 0 rfl rfl rfl).2.2.1,
    (malformed_action_fires_without_mutation [] demoRuleUnrec 0 rfl rfl rfl).2.2.2.2⟩,
   ⟨(malformed_action_fires_without_mutation [] demoRuleArity 0 rfl rfl rfl).2.2.1,
    (malformed_action_fires_without_mutation [] demoRuleArity 0 rfl rfl rfl).2.2.2.2⟩⟩

/-! Stability of the insertion-sort model of Python's stable `sorted`:
within any class of mutually tied elements, the sort output preserves the
input order (expressed through `filter`). -/

theorem filter_orderedInsert_pos {α : Type} (r : α → α → Prop) [DecidableRel r]
    (p : α → Bool) (a : α) (hpa : p a = true) (hall : ∀ b, p b = true → r a b) :
    ∀ L : List α, (List.orderedInsert r a L).filter p = a :: L.filter p := by
  intro L
  induction L with
  | nil => simp [hpa]
  | cons b L ih =>
    by_cases hr : r a b
    · simp [List.orderedInsert, hr, hpa]
    · have hpb : p b = false := by
        cases hb : p b
        · rfl
        · exact absurd (hall b hb) hr
      simp [List.orderedInsert, hr, hpb, ih]

theorem filter_orderedInsert_neg {α : Type} (r : α → α → Prop) [DecidableRel r]
    (p : α → Bool) (a : α) (hpa : p a = false) :
    ∀ L : List α, (List.orderedInsert r a L).filter p = L.filter p := by
  intro L
  induction L with
  | nil => simp [hpa]
  | cons b L ih =>
    by_cases hr : r a b
    · simp [List.orderedInsert, hr, hpa]
    · cases hb : p b <;> simp [List.orderedInsert, hr, hb, ih]

theorem filter_insertionSort {α : Type} (r : α → α → Prop) [DecidableRel r]
    (p : α → Bool) (hcls : ∀ a b, p a = true → p b = true → r a b) :
    ∀ l : List α, (List.insertionSort r l).filter p = l.filter p := by
  intro l
  induction l with
  | nil => rfl
  | cons a l ih =>
    cases hpa : p a
    · rw [List.insertionSort, filter_orderedInsert_neg r p a hpa, ih]
      simp [hpa]
    · rw [List.insertionSort,
        filter_orderedInsert_pos r p a hpa (fun b hb => hcls a b hpa hb), ih]
      simp [hpa]

/-- If the head rule of the scan is eligible and its condition is truthy, the
scan fires it: the step list grows by exactly its step. -/
theorem scanFire_head_fires (now : Int) (st : RunState) (r : Rule) (rs : List Rule)
    (hse : should_evaluate_rule now st.facts r = true)
    (hcr : (evaluate_rule now st.facts r).condition_result = true) :
    ∃ st', scanFire now st (r :: rs) = some st' ∧
      st'.steps = st.steps ++ [evaluate_rule now st.facts r] := by
  simp only [scanFire, hse, if_true, hcr]
  cases hexec : execute_action r.action r st.facts now with
  | mk aRes facts' =>
    exact ⟨_, rfl, rfl⟩

/-- C3: rule scanning respects priorities.  (1) `_load_rules` yields a list
sorted by ascending priority (default 999); (2) the sort is stable — within
each priority class the original definition order is preserved; (3) in a run
where two rules with priorities 10 and 20 both have initially-truthy
conditions (even when loaded in the opposite order), the priority-10 rule's
InferenceStep is the first step of the run, so it appears before any step of
the priority-20 rule; the scan restarts from the top after the firing. -/
theorem rules_scanned_in_priority_order :
    (∀ rl : List Rule,
      (load_rules rl).Pairwise (fun a b => priorityKey a ≤ priorityKey b)) ∧
    (∀ (rl : List Rule) (p0 : Int),
      (load_rules rl).filter (fun r => decide (priorityKey r = p0)) =
        rl.filter (fun r => decide (priorityKey r = p0))) ∧
    (∀ (c1 c2 : Option Expr) (a1 a2 : String) (now : Int),
      truthy (evaluate c1 now (init_facts [] now)) = true →
      truthy (evaluate c2 now (init_facts [] now)) = true →
      ∀ res, res = forward_chaining
          (load_rules [mkRule "r20" 20 c2 a2, mkRule "r10" 10 c1 a1]) [] 100 now →
        res.steps.head?.map (fun s => s.rule_id) = some "r10" ∧
        ∀ (j : Nat) (hj : j < res.steps.length),
          (res.steps.get ⟨j, hj⟩).rule_id = "r20" →
          ∃ (i : Nat) (hi : i < res.steps.length), i < j ∧
            (res.steps.get ⟨i, hi⟩).rule_id = "r10") := by
  refine ⟨?_, ?_, ?_⟩
  · intro rl
    haveI : IsTotal Rule (fun a b => priorityKey a ≤ priorityKey b) :=
      ⟨fun a b => Int.le_total _ _⟩
    haveI : IsTrans Rule (fun a b => priorityKey a ≤ priorityKey b) :=
      ⟨fun _ _ _ hab hbc => le_trans hab hbc⟩
    exact List.sorted_insertionSort _ rl
  · intro rl p0
    exact filter_insertionSort _ _
      (fun a b ha hb => by
        have ha' := of_decide_eq_true ha
        have hb' := of_decide_eq_true hb
        rw [ha', hb'])
      rl
  · intro c1 c2 a1 a2 now h1 h2 res hres
    have hload : load_rules [mkRule "r20" 20 c2 a2, mkRule "r10" 10 c1 a1] =
        [mkRule "r10" 10 c1 a1, mkRule "r20" 20 c2 a2] := by
      simp [load_rules, priorityKey, mkRule]
    have hse : should_evaluate_rule now (init_facts [] now) (mkRule "r10" 10 c1 a1)
        = true := by
      unfold should_evaluate_rule
      simp [init_facts, envSet, envGet, flagKey, mkRule, truthy]
    have hcr :
        (evaluate_rule now (init_facts [] now) (mkRule "r10" 10 c1 a1)).condition_result
          = true := h1
    obtain ⟨st', hscan, hsteps⟩ := scanFire_head_fires now
      { facts := init_facts [] now, steps := [], conclusions := [],
        actions_taken := [] }
      (mkRule "r10" 10 c1 a1) [mkRule "r20" 20 c2 a2] hse hcr
    obtain ⟨t, ht⟩ := runLoop_steps_mono
      [mkRule "r10" 10 c1 a1, mkRule "r20" 20 c2 a2] now 99 st'
    have hrsteps : res.steps =
        evaluate_rule now (init_facts [] now) (mkRule "r10" 10 c1 a1) :: t := by
      rw [hres, hload]
      show (runLoop [mkRule "r10" 10 c1 a1, mkRule "r20" 20 c2 a2] now 100
        { facts := init_facts [] now, steps := [], conclusions := [],
          actions_taken := [] }).steps = _
      rw [show (100 : Nat) = 99 + 1 from rfl, runLoop_succ, hscan]
      show (runLoop _ now 99 st').steps = _
      rw [ht, hsteps]
      rfl
    have hget0 : ∀ (h0 : 0 < res.steps.length),
        (res.steps.get ⟨0, h0⟩).rule_id = "r10" := by
      intro h0
      rw [List.get_of_eq hrsteps ⟨0, h0⟩]
      rfl
    constructor
    · rw [hrsteps]
      rfl
    · intro j hj hid
      match j with
      | 0 => exact absurd ((hget0 hj).symm.trans hid) (by decide)
      | j' + 1 =>
        have hlen : 0 < res.steps.length :=
          Nat.lt_of_lt_of_le (Nat.zero_lt_succ j') (le_of_lt hj)
        exact ⟨0, hlen, Nat.zero_lt_succ j', hget0 hlen⟩

/-- Witness for C3's scenario part: both conditions are the literal `True`,
the actions are no-ops, and the rules are supplied in reverse priority
order. -/
theorem rules_scanned_in_priority_order_witness :
    ∀ res, res = forward_chaining
        (load_rules [mkRule "r20" 20 (some (.const (.vBool true))) "noop(",
          mkRule "r10" 10 (some (.const (.vBool true))) "noop("]) [] 100 0 →
      res.steps.head?.map (fun s => s.rule_id) = some "r10" ∧
      ∀ (j : Nat) (hj : j < res.steps.length),
        (res.steps.get ⟨j, hj⟩).rule_id = "r20" →
        ∃ (i : Nat) (hi : i < res.steps.length), i < j ∧
          (res.steps.get ⟨i, hi⟩).rule_id = "r10" :=
  rules_scanned_in_priority_order.2.2 (some (.const (.vBool true)))
    (some (.const (.vBool true))) "noop(" "noop(" 0 rfl rfl

/-! Algebra of the `INSERT OR REPLACE` upsert. -/

theorem dbUpsert_twice (db : List (String × DbRow)) (cid : String) (r1 r2 : DbRow) :
    dbUpsert (dbUpsert db cid r1) cid r2 = dbUpsert db cid r2 := by
  simp [dbUpsert, List.filter_append, List.filter_filter]

theorem dbUpsert_length (db : List (String × DbRow)) (cid : String) (r : DbRow) :
    (dbUpsert db cid r).length = (db.filter (fun e => !(e.1 == cid))).length + 1 := by
  simp [dbUpsert]

theorem dbUpsert_count (db : List (String × DbRow)) (cid : String) (r : DbRow) :
    (dbUpsert db cid r).filter (fun e => e.1 == cid) = [(cid, r)] := by
  simp [dbUpsert, List.filter_append, List.filter_filter]

theorem dbUpsert_keys (db : List (String × DbRow)) (cid : String) (r : DbRow) :
    (dbUpsert db cid r).map (fun e => e.1) =
      (db.filter (fun e => !(e.1 == cid))).map (fun e => e.1) ++ [cid] := by
  simp [dbUpsert]

/-- Whether `extract_features` raises depends only on the facts, not on the
wall clock (`now` only enters the never-failing deadline computation). -/
theorem extract_features_ok_of_ok (t1 t2 : Int) (facts : Env)
    (f1 : List (String × ℚ)) (h : extract_features t1 facts = .ok f1) :
    ∃ f2, extract_features t2 facts = .ok f2 := by
  unfold extract_features at h ⊢
  cases h1 : hashedMapGet motivo_map ((envGet "motivo" facts).getD (.vStr "")) with
  | error e => rw [h1] at h; simp only [ebind_error] at h; exact absurd h (by simp)
  | ok m =>
    rw [h1] at h
    simp only [ebind_ok] at h ⊢
    cases h2 : pyFloatQ ((envGet "duracion" facts).getD (.vInt 0)) with
    | error e => rw [h2] at h; simp only [ebind_error] at h; exact absurd h (by simp)
    | ok d =>
      rw [h2] at h
      simp only [ebind_ok] at h ⊢
      cases h3 : pyFloatQ ((envGet "ausencias_ultimo_mes" facts).getD (.vInt 0)) with
      | error e => rw [h3] at h; simp only [ebind_error] at h; exact absurd h (by simp)
      | ok a =>
        rw [h3] at h
        simp only [ebind_ok] at h ⊢
        cases h4 : hashedMapGet sector_map ((envGet "sector" facts).getD (.vStr "")) with
        | error e => rw [h4] at h; simp only [ebind_error] at h; exact absurd h (by simp)
        | ok s =>
          simp only [ebind_ok]
          exact ⟨_, rfl⟩

/-- C6: `store_case` is idempotent on the persisted case store.  A second
call with identical facts, rules, actions and outcome (at any later
timestamp) returns the same content-derived `case_id`; the database upsert
replaces the existing row instead of inserting a second one, so the row
count, the key multiset, and the uniqueness of the `case_id` row are all
preserved. -/
theorem store_case_idempotent (st : CBRState) (facts : Env)
    (rules actions : List String) (outcome : String) (t1 t2 : Int)
    (cid : String) (st1 : CBRState)
    (h : store_case st facts rules actions outcome t1 = .ok (cid, st1)) :
    ∃ st2, store_case st1 facts rules actions outcome t2 = .ok (cid, st2) ∧
      st2.db.length = st1.db.length ∧
      (st2.db.filter (fun e => e.1 == cid)).length = 1 ∧
      st2.db.map (fun e => e.1) = st1.db.map (fun e => e.1) := by
  unfold store_case at h ⊢
  cases hcc : caseContent (serializable_facts facts) rules actions with
  | error e => rw [hcc] at h; simp only [ebind_error] at h; exact absurd h (by simp)
  | ok content =>
    rw [hcc] at h
    simp only [ebind_ok] at h ⊢
    cases hfe : extract_features t1 facts with
    | error e => rw [hfe] at h; simp only [ebind_error] at h; exact absurd h (by simp)
    | ok feats =>
      rw [hfe] at h
      simp only [ebind_ok] at h
      cases hee : encodeEntries (serializable_facts facts) with
      | error e => rw [hee] at h; simp only [ebind_error] at h; exact absurd h (by simp)
      | ok factParts =>
        rw [hee] at h
        simp only [ebind_ok, Except.ok.injEq, Prod.mk.injEq] at h
        obtain ⟨hcid, hst1⟩ := h
        cases hfe2 : extract_features t2 facts with
        | error e =>
          obtain ⟨f2, hf2⟩ := extract_features_ok_of_ok t1 t2 facts feats hfe
          rw [hfe2] at hf2
          exact absurd hf2 (by simp)
        | ok feats2 =>
          simp only [ebind_ok, Except.ok.injEq, Prod.mk.injEq]
          refine ⟨_, ⟨?_, rfl⟩, ?_, ?_, ?_⟩
          · rw [← hcid]
          · rw [← hst1]
            simp only [dbUpsert_twice, dbUpsert_length]
          · rw [← hcid, ← hst1]
            simp only [dbUpsert_twice, dbUpsert_count, List.length_singleton]
          · rw [← hst1]
            simp only [dbUpsert_twice, dbUpsert_keys]

/-- Witness for C6: storing the same content twice into an empty store. -/
theorem store_case_idempotent_witness :
    ∃ st2, store_case demoStored1 demoQueryFacts ["rA", "rB"] ["a1"] "approved" 9 =
        .ok ("aecf4001e8eb", st2) ∧
      st2.db.length = demoStored1.db.length ∧
      (st2.db.filter (fun e => e.1 == "aecf4001e8eb")).length = 1 ∧
      st2.db.map (fun e => e.1) = demoStored1.db.map (fun e => e.1) :=
  store_case_idempotent ⟨[], []⟩ demoQueryFacts ["rA", "rB"] ["a1"] "approved" 5 9
    "aecf4001e8eb" demoStored1 rfl

/-- Characterisation of the candidate list of `find_similar_cases`: exactly
the stored cases whose similarity reaches the threshold, packaged with their
score and matching features. -/
theorem mem_similarCandidates_aux (cf : List (String × ℚ)) (minSim : ℚ)
    (cases : List Case) (acc : List SimilarCase) (x : SimilarCase) :
    x ∈ cases.foldl
        (fun acc c =>
          let s := calculate_similarity cf c.similarity_features
          if minSim ≤ s then
            acc ++ [{ case := c, similarity_score := s,
                      matching_features := matchingFeatures cf c.similarity_features }]
          else acc)
        acc ↔
      x ∈ acc ∨ ∃ c ∈ cases,
        minSim ≤ calculate_similarity cf c.similarity_features ∧
        x = { case := c,
              similarity_score := calculate_similarity cf c.similarity_features,
              matching_features := matchingFeatures cf c.similarity_features } := by
  induction cases generalizing acc with
  | nil => simp
  | cons c cs ih =>
    rw [List.foldl_cons, ih]
    by_cases hs : minSim ≤ calculate_similarity cf c.similarity_features
    · simp only [hs, if_true, List.mem_append, List.mem_singleton, List.mem_cons,
        List.not_mem_nil, or_false]
      constructor
      · rintro (⟨hx | hx⟩ | ⟨c', hc', hsc', hx⟩)
        · exact Or.inl hx
        · exact Or.inr ⟨c, Or.inl rfl, hs, hx⟩
        · exact Or.inr ⟨c', Or.inr hc', hsc', hx⟩
      · rintro (hx | ⟨c', hc' | hc', hsc', hx⟩)
        · exact Or.inl (Or.inl hx)
        · subst hc'; exact Or.inl (Or.inr hx)
        · exact Or.inr ⟨c', hc', hsc', hx⟩
    · simp only [hs, if_false, List.mem_cons]
      constructor
      · rintro (hx | ⟨c', hc', hsc', hx⟩)
        · exact Or.inl hx
        · exact Or.inr ⟨c', Or.inr hc', hsc', hx⟩
      · rintro (hx | ⟨c', hc' | hc', hsc', hx⟩)
        · exact Or.inl hx
        · subst hc'; exact absurd hsc' hs
        · exact Or.inr ⟨c', hc', hsc', hx⟩

theorem mem_similarCandidates (cf : List (String × ℚ)) (minSim : ℚ)
    (cases : List Case) (x : SimilarCase) :
    x ∈ similarCandidates cf minSim cases ↔
      ∃ c ∈ cases,
        minSim ≤ calculate_similarity cf c.similarity_features ∧
        x = { case := c,
              similarity_score := calculate_similarity cf c.similarity_features,
              matching_features := matchingFeatures cf c.similarity_features } := by
  rw [similarCandidates, mem_similarCandidates_aux]
  simp

/-- C7: retrieval contract of `find_similar_cases`.  Whenever the query
features extract cleanly, the call returns (without raising) a list that
(i) has at most `top_k` elements, (ii) contains only stored cases scored at
or above `min_similarity` with their true similarity, (iii) is sorted by
similarity descending, (iv) is exhaustive whenever the `top_k` cut is not
reached, and (v) is stable: within any class of equal scores the stored
insertion order is preserved (the tied part of the output is a prefix of the
tied part of the candidate list). -/
theorem find_similar_cases_spec (cases : List Case) (facts : Env) (k : Nat)
    (minSim : ℚ) (now : Int) (cf : List (String × ℚ))
    (hcf : extract_features now facts = .ok cf) :
    ∃ res, find_similar_cases cases facts k minSim now = .ok res ∧
      res.length ≤ k ∧
      (∀ sc ∈ res, minSim ≤ sc.similarity_score ∧ sc.case ∈ cases ∧
        sc.similarity_score = calculate_similarity cf sc.case.similarity_features) ∧
      res.Pairwise (fun a b => b.similarity_score ≤ a.similarity_score) ∧
      (res.length < k → ∀ c ∈ cases,
        minSim ≤ calculate_similarity cf c.similarity_features →
        ∃ sc ∈ res, sc.case = c ∧
          sc.similarity_score = calculate_similarity cf c.similarity_features) ∧
      (∀ q : ℚ, ∃ t,
        (similarCandidates cf minSim cases).filter
            (fun sc => decide (sc.similarity_score = q)) =
          res.filter (fun sc => decide (sc.similarity_score = q)) ++ t) := by
  by_cases hcs : cases.isEmpty
  · have hnil : cases = [] := List.isEmpty_iff.mp hcs
    subst hnil
    refine ⟨[], by simp [find_similar_cases], by simp, by simp, by simp, ?_, ?_⟩
    · intro _ c hc
      exact absurd hc (List.not_mem_nil c)
    · intro q
      exact ⟨[], rfl⟩
  · haveI htot : IsTotal SimilarCase
        (fun a b : SimilarCase => b.similarity_score ≤ a.similarity_score) :=
      ⟨fun a b => le_total b.similarity_score a.similarity_score⟩
    haveI htrans : IsTrans SimilarCase
        (fun a b : SimilarCase => b.similarity_score ≤ a.similarity_score) :=
      ⟨fun _ _ _ hab hbc => le_trans hbc hab⟩
    have hfind : find_similar_cases cases facts k minSim now =
        .ok ((List.insertionSort
          (fun a b => b.similarity_score ≤ a.similarity_score)
          (similarCandidates cf minSim cases)).take k) := by
      unfold find_similar_cases
      rw [if_neg hcs, hcf]
      rfl
    refine ⟨_, hfind, ?_, ?_, ?_, ?_, ?_⟩
    · simp [List.length_take]
    · intro sc hsc
      have h1 : sc ∈ List.insertionSort
          (fun a b : SimilarCase => b.similarity_score ≤ a.similarity_score)
          (similarCandidates cf minSim cases) :=
        (List.take_sublist k _).mem hsc
      have h2 : sc ∈ similarCandidates cf minSim cases :=
        (List.mem_insertionSort _).mp h1
      obtain ⟨c, hc, hle, hx⟩ := (mem_similarCandidates cf minSim cases sc).mp h2
      subst hx
      exact ⟨hle, hc, rfl⟩
    · exact List.Pairwise.sublist (List.take_sublist k _)
        (List.sorted_insertionSort _ (similarCandidates cf minSim cases))
    · intro hlt c hc hle
      rw [List.length_take] at hlt
      have hlen : (List.insertionSort
          (fun a b : SimilarCase => b.similarity_score ≤ a.similarity_score)
          (similarCandidates cf minSim cases)).length < k := by omega
      rw [List.take_of_length_le (le_of_lt hlen)]
      refine ⟨⟨c, calculate_similarity cf c.similarity_features,
        matchingFeatures cf c.similarity_features⟩, ?_, rfl, rfl⟩
      rw [List.mem_insertionSort, mem_similarCandidates]
      exact ⟨c, hc, hle, rfl⟩
    · intro q
      have hstable :
          (List.insertionSort
              (fun a b : SimilarCase => b.similarity_score ≤ a.similarity_score)
              (similarCandidates cf minSim cases)).filter
              (fun sc => decide (sc.similarity_score = q)) =
            (similarCandidates cf minSim cases).filter
              (fun sc => decide (sc.similarity_score = q)) :=
        filter_insertionSort _ _
          (fun a b ha hb => by
            have ha' := of_decide_eq_true ha
            have hb' := of_decide_eq_true hb
            show b.similarity_score ≤ a.similarity_score
            rw [ha', hb'])
          (similarCandidates cf minSim cases)
      refine ⟨(List.drop k (List.insertionSort
        (fun a b : SimilarCase => b.similarity_score ≤ a.similarity_score)
        (similarCandidates cf minSim cases))).filter
        (fun sc => decide (sc.similarity_score = q)), ?_⟩
      rw [← hstable]
      rw [← List.filter_append, List.take_append_drop]

/-- Witness for C7 on the concrete two-case store of the spec's scenario
(similarities 0.9 and 0.4, `k = 5`, `min_similarity = 0.3`). -/
theorem find_similar_cases_spec_witness :
    ∃ res, find_similar_cases [approvedCase, escalatedCase] demoQueryFacts 5 (3/10) 0
        = .ok res ∧
      res.length ≤ 5 ∧
      (∀ sc ∈ res, (3/10 : ℚ) ≤ sc.similarity_score ∧
        sc.case ∈ [approvedCase, escalatedCase] ∧
        sc.similarity_score =
          calculate_similarity demoQueryFeatures sc.case.similarity_features) ∧
      res.Pairwise (fun a b => b.similarity_score ≤ a.similarity_score) ∧
      (res.length < 5 → ∀ c ∈ [approvedCase, escalatedCase],
        (3/10 : ℚ) ≤ calculate_similarity demoQueryFeatures c.similarity_features →
        ∃ sc ∈ res, sc.case = c ∧
          sc.similarity_score =
            calculate_similarity demoQueryFeatures c.similarity_features) ∧
      (∀ q : ℚ, ∃ t,
        (similarCandidates demoQueryFeatures (3/10) [approvedCase, escalatedCase]).filter
            (fun sc => decide (sc.similarity_score = q)) =
          res.filter (fun sc => decide (sc.similarity_score = q)) ++ t) :=
  find_similar_cases_spec [approvedCase, escalatedCase] demoQueryFacts 5 (3/10) 0
    demoQueryFeatures rfl

/-! Lemmas about the `defaultdict` vote accumulation of
`get_recommendations`. -/

theorem featGet_upsertAdd (l : List (String × ℚ)) (k' : String) (w : ℚ) (k : String) :
    featGet k (upsertAdd l k' w) =
      if k' = k then some ((featGet k l).getD 0 + w) else featGet k l := by
  induction l with
  | nil =>
    by_cases hk : k' = k <;> simp [upsertAdd, featGet, hk]
  | cons kv rest ih =>
    obtain ⟨k0, v⟩ := kv
    by_cases h0 : k0 = k'
    · subst h0
      by_cases hk : k0 = k
      · subst hk; simp [upsertAdd, featGet]
      · have : ¬ k0 = k := hk
        simp [upsertAdd, featGet, hk, this]
    · by_cases hk : k0 = k
      · subst hk
        have hk' : ¬ k' = k0 := fun hh => h0 hh.symm
        simp [upsertAdd, featGet, h0, hk']
      · simp [upsertAdd, featGet, h0, hk, ih]

theorem upsertAdd_ne_nil (l : List (String × ℚ)) (k : String) (w : ℚ) :
    upsertAdd l k w ≠ [] := by
  cases l with
  | nil => simp [upsertAdd]
  | cons kv rest =>
    by_cases h : kv.1 = k <;> simp [upsertAdd, h]

theorem votesFold_ne_nil (sims : List SimilarCase) (acc : List (String × ℚ))
    (h : acc ≠ []) :
    sims.foldl (fun a sc => upsertAdd a sc.case.outcome sc.similarity_score) acc ≠ [] := by
  induction sims generalizing acc with
  | nil => exact h
  | cons sc rest ih =>
    exact ih _ (upsertAdd_ne_nil _ _ _)

theorem outcomeVotes_ne_nil (sims : List SimilarCase) (h : sims ≠ []) :
    outcomeVotes sims ≠ [] := by
  cases sims with
  | nil => exact absurd rfl h
  | cons sc rest =>
    rw [outcomeVotes, List.foldl_cons]
    exact votesFold_ne_nil rest _ (upsertAdd_ne_nil _ _ _)

/-- The accumulated value at any key after folding the votes. -/
theorem votesFold_getD (sims : List SimilarCase) (acc : List (String × ℚ)) (k : String) :
    (featGet k (sims.foldl
        (fun a sc => upsertAdd a sc.case.outcome sc.similarity_score) acc)).getD 0 =
      (featGet k acc).getD 0 + voteFor k sims := by
  induction sims generalizing acc with
  | nil => simp [voteFor]
  | cons sc rest ih =>
    rw [List.foldl_cons, ih, featGet_upsertAdd, voteFor]
    by_cases hk : sc.case.outcome = k
    · rw [if_pos hk, if_pos hk]
      simp
      ring
    · rw [if_neg hk, if_neg hk]
      simp

/-- Keys never disappear from the vote table. -/
theorem votesFold_none (sims : List SimilarCase) (acc : List (String × ℚ)) (k : String) :
    featGet k (sims.foldl
        (fun a sc => upsertAdd a sc.case.outcome sc.similarity_score) acc) = none →
      featGet k acc = none ∧ k ∉ sims.map (fun sc => sc.case.outcome) := by
  induction sims generalizing acc with
  | nil => intro h; exact ⟨h, by simp⟩
  | cons sc rest ih =>
    intro h
    rw [List.foldl_cons] at h
    obtain ⟨h1, h2⟩ := ih _ h
    rw [featGet_upsertAdd] at h1
    by_cases hk : sc.case.outcome = k
    · rw [if_pos hk] at h1; exact absurd h1 (by simp)
    · rw [if_neg hk] at h1
      refine ⟨h1, ?_⟩
      simp only [List.map_cons, List.mem_cons]
      rintro (hh | hh)
      · exact hk hh.symm
      · exact h2 hh

/-- Every outcome that occurs among the neighbors has its weighted vote in
the table. -/
theorem featGet_outcomeVotes (sims : List SimilarCase) (o : String)
    (h : o ∈ sims.map (fun sc => sc.case.outcome)) :
    featGet o (outcomeVotes sims) = some (voteFor o sims) := by
  have hv := votesFold_getD sims [] o
  rw [show outcomeVotes sims = sims.foldl
    (fun a sc => upsertAdd a sc.case.outcome sc.similarity_score) [] from rfl] at *
  cases hg : featGet o (sims.foldl
      (fun a sc => upsertAdd a sc.case.outcome sc.similarity_score) []) with
  | none => exact absurd ((votesFold_none sims [] o hg).2) (by simp [h])
  | some w =>
    rw [hg] at hv
    simp only [Option.getD_some, featGet, Option.getD_none] at hv
    rw [hv]
    simp

/-- The key list of the vote table stays duplicate-free. -/
theorem upsertAdd_keys_nodup (l : List (String × ℚ)) (k : String) (w : ℚ)
    (h : (l.map (fun e => e.1)).Nodup) :
    ((upsertAdd l k w).map (fun e => e.1)).Nodup := by
  induction l with
  | nil => simp [upsertAdd]
  | cons kv rest ih =>
    by_cases hk : kv.1 = k
    · simp only [upsertAdd, hk, if_true]
      simp only [List.map_cons, List.nodup_cons] at h ⊢
      exact ⟨by rw [← hk]; exact h.1, h.2⟩
    · simp only [upsertAdd, hk, if_false]
      simp only [List.map_cons, List.nodup_cons] at h ⊢
      constructor
      · intro hmem
        have : kv.1 ∈ rest.map (fun e => e.1) ∨ kv.1 = k := by
          clear ih h
          induction rest with
          | nil =>
            simp [upsertAdd] at hmem
            exact Or.inr hmem
          | cons kv2 rest2 ih2 =>
            by_cases h2 : kv2.1 = k
            · simp only [upsertAdd, h2, if_true, List.map_cons, List.mem_cons] at hmem ⊢
              rcases hmem with hmem | hmem
              · exact Or.inl (Or.inl hmem)
              · exact Or.inl (Or.inr hmem)
            · simp only [upsertAdd, h2, if_false, List.map_cons, List.mem_cons] at hmem ⊢
              rcases hmem with hmem | hmem
              · exact Or.inl (Or.inl hmem)
              · rcases ih2 hmem with hh | hh
                · exact Or.inl (Or.inr hh)
                · exact Or.inr hh
        rcases this with hh | hh
        · exact h.1 hh
        · exact hk hh
      · exact ih h.2

theorem votesFold_keys_nodup (sims : List SimilarCase) (acc : List (String × ℚ))
    (h : (acc.map (fun e => e.1)).Nodup) :
    ((sims.foldl (fun a sc => upsertAdd a sc.case.outcome sc.similarity_score)
        acc).map (fun e => e.1)).Nodup := by
  induction sims generalizing acc with
  | nil => exact h
  | cons sc rest ih =>
    exact ih _ (upsertAdd_keys_nodup _ _ _ h)

/-- With duplicate-free keys, membership determines the looked-up value. -/
theorem featGet_of_mem_nodup (l : List (String × ℚ)) (k : String) (v : ℚ)
    (hd : (l.map (fun e => e.1)).Nodup) (h : (k, v) ∈ l) :
    featGet k l = some v := by
  induction l with
  | nil => exact absurd h (List.not_mem_nil _)
  | cons kv rest ih =>
    simp only [List.map_cons, List.nodup_cons] at hd
    rcases List.mem_cons.mp h with hh | hh
    · rw [← hh]
      simp [featGet]
    · have hk : ¬ kv.1 = k := by
        intro he
        apply hd.1
        rw [he]
        exact List.mem_map.mpr ⟨(k, v), hh, rfl⟩
      simp only [featGet, hk, if_false]
      exact ih hd.2 hh

/-- `pyMaxBySnd` returns an element of the item list. -/
theorem pyMaxBySnd_mem (x : String × ℚ) (rest : List (String × ℚ)) :
    pyMaxBySnd x rest ∈ x :: rest := by
  induction rest generalizing x with
  | nil => simp [pyMaxBySnd]
  | cons y ys ih =>
    rw [pyMaxBySnd, List.foldl_cons]
    by_cases hxy : x.2 < y.2
    · rw [if_pos hxy]
      have := ih y
      rw [pyMaxBySnd] at this
      rcases List.mem_cons.mp this with hh | hh
      · rw [hh]; simp
      · simp [hh]
    · rw [if_neg hxy]
      have := ih x
      rw [pyMaxBySnd] at this
      rcases List.mem_cons.mp this with hh | hh
      · rw [hh]; simp
      · simp [hh]

/-- `pyMaxBySnd` dominates every item's weight. -/
theorem pyMaxBySnd_ge (x : String × ℚ) (rest : List (String × ℚ)) :
    ∀ y ∈ x :: rest, y.2 ≤ (pyMaxBySnd x rest).2 := by
  induction rest generalizing x with
  | nil =>
    intro y hy
    rcases List.mem_cons.mp hy with hh | hh
    · rw [hh]
      simp [pyMaxBySnd]
    · exact absurd hh (List.not_mem_nil _)
  | cons z zs ih =>
    intro y hy
    rw [pyMaxBySnd, List.foldl_cons]
    by_cases hxz : x.2 < z.2
    · rw [if_pos hxz]
      rcases List.mem_cons.mp hy with hh | hh
      · calc y.2 = x.2 := by rw [hh]
          _ ≤ z.2 := le_of_lt hxz
          _ ≤ _ := by
            have := ih z z (List.mem_cons_self z zs)
            rw [pyMaxBySnd] at this
            exact this
      · exact ih z y hh
    · rw [if_neg hxz]
      rcases List.mem_cons.mp hy with hh | hh
      · rw [hh]
        exact ih x x (List.mem_cons_self x zs)
      · rcases List.mem_cons.mp hh with hh2 | hh2
        · calc y.2 = z.2 := by rw [hh2]
            _ ≤ x.2 := le_of_not_lt hxz
            _ ≤ _ := ih x x (List.mem_cons_self x zs)
        · exact ih x y (List.mem_cons.mpr (Or.inr hh2))

theorem mem_of_featGet (l : List (String × ℚ)) (k : String) (v : ℚ)
    (h : featGet k l = some v) : (k, v) ∈ l := by
  induction l with
  | nil => exact absurd h (by simp [featGet])
  | cons kv rest ih =>
    by_cases hk : kv.1 = k
    · simp only [featGet, hk, if_true, Option.some.injEq] at h
      rw [← hk, ← h]
      simp
    · simp only [featGet, hk, if_false] at h
      exact List.mem_cons.mpr (Or.inr (ih h))

/-- The predicted outcome of `get_recommendations` carries exactly its
weighted vote, and that vote dominates the weighted vote of every outcome
among the neighbors. -/
theorem mostLikely_vote (sims : List SimilarCase) (hne : sims ≠ []) :
    (mostLikelyOutcome sims).2 = voteFor (mostLikelyOutcome sims).1 sims ∧
    ∀ o ∈ sims.map (fun sc => sc.case.outcome),
      voteFor o sims ≤ (mostLikelyOutcome sims).2 := by
  have hvn := outcomeVotes_ne_nil sims hne
  cases hov : outcomeVotes sims with
  | nil => exact absurd hov hvn
  | cons v rest =>
    have hml : mostLikelyOutcome sims = pyMaxBySnd v rest := by
      rw [mostLikelyOutcome, hov]
    have hnodup : ((outcomeVotes sims).map (fun e => e.1)).Nodup :=
      votesFold_keys_nodup sims [] (by simp)
    have hmem : pyMaxBySnd v rest ∈ outcomeVotes sims := by
      rw [hov]; exact pyMaxBySnd_mem v rest
    have hget : featGet (pyMaxBySnd v rest).1 (outcomeVotes sims) =
        some (pyMaxBySnd v rest).2 :=
      featGet_of_mem_nodup _ _ _ hnodup (by
        have : ((pyMaxBySnd v rest).1, (pyMaxBySnd v rest).2) = pyMaxBySnd v rest := rfl
        rw [this]
        exact hmem)
    have hval := votesFold_getD sims [] (pyMaxBySnd v rest).1
    rw [show sims.foldl (fun a sc => upsertAdd a sc.case.outcome sc.similarity_score) []
      = outcomeVotes sims from rfl, hget] at hval
    simp only [Option.getD_some, featGet, Option.getD_none] at hval
    constructor
    · rw [hml]
      rw [hval]
      simp
    · intro o ho
      have hgo := featGet_outcomeVotes sims o ho
      have hmo : (o, voteFor o sims) ∈ outcomeVotes sims := mem_of_featGet _ _ _ hgo
      rw [hov] at hmo
      have := pyMaxBySnd_ge v rest (o, voteFor o sims) hmo
      rw [hml]
      exact this

/-! Pointwise reductions of `featureSim` at each concrete feature name, and
the concrete similarity computations of the spec's scenario. -/

theorem featureSim_motivo (v1 v2 : ℚ) :
    featureSim "motivo" v1 v2 = if v1 = v2 then 1 else 0 := rfl

theorem featureSim_cert (v1 v2 : ℚ) :
    featureSim "certificate_uploaded" v1 v2 = if v1 = v2 then 1 else 0 := rfl

theorem featureSim_valstat (v1 v2 : ℚ) :
    featureSim "validation_status" v1 v2 = if v1 = v2 then 1 else 0 := rfl

theorem featureSim_duracion (v1 v2 : ℚ) :
    featureSim "duracion" v1 v2 = 1 - |v1 - v2| / max (max v1 v2) 1 := rfl

theorem featureSim_aus (v1 v2 : ℚ) :
    featureSim "ausencias_ultimo_mes" v1 v2 = 1 - |v1 - v2| / max (max v1 v2) 1 := rfl

theorem featureSim_sector (v1 v2 : ℚ) :
    featureSim "sector" v1 v2 = 1 - |v1 - v2| / max (max v1 v2) 1 := rfl

theorem featureSim_deadline (v1 v2 : ℚ) :
    featureSim "deadline_exceeded" v1 v2 = 1 - |v1 - v2| / max (max v1 v2) 1 := rfl

theorem sim_query_approved :
    calculate_similarity demoQueryFeatures approvedFeatures = 9/10 := by
  simp only [calculate_similarity, feature_weights, List.foldl_cons, List.foldl_nil,
    (show featGet "motivo" demoQueryFeatures = some 1 from rfl),
    (show featGet "duracion" demoQueryFeatures = some 1 from rfl),
    (show featGet "ausencias_ultimo_mes" demoQueryFeatures = some 1 from rfl),
    (show featGet "certificate_uploaded" demoQueryFeatures = some 0 from rfl),
    (show featGet "validation_status" demoQueryFeatures = some 1 from rfl),
    (show featGet "deadline_exceeded" demoQueryFeatures = some 0 from rfl),
    (show featGet "sector" demoQueryFeatures = some 1 from rfl),
    (show featGet "motivo" approvedFeatures = some 1 from rfl),
    (show featGet "duracion" approvedFeatures = some 1 from rfl),
    (show featGet "ausencias_ultimo_mes" approvedFeatures = some 3 from rfl),
    (show featGet "certificate_uploaded" approvedFeatures = some 0 from rfl),
    (show featGet "validation_status" approvedFeatures = some 1 from rfl),
    (show featGet "deadline_exceeded" approvedFeatures = some 0 from rfl),
    (show featGet "sector" approvedFeatures = some 1 from rfl),
    featureSim_motivo, featureSim_cert, featureSim_valstat, featureSim_duracion,
    featureSim_aus, featureSim_sector, featureSim_deadline,
    (show demoQueryFeatures.isEmpty = false from rfl),
    (show approvedFeatures.isEmpty = false from rfl)]
  norm_num [abs_of_nonneg, abs_of_nonpos, max_def]

theorem sim_query_escalated :
    calculate_similarity demoQueryFeatures escalatedFeatures = 2/5 := by
  simp only [calculate_similarity, feature_weights, List.foldl_cons, List.foldl_nil,
    (show featGet "motivo" demoQueryFeatures = some 1 from rfl),
    (show featGet "duracion" demoQueryFeatures = some 1 from rfl),
    (show featGet "ausencias_ultimo_mes" demoQueryFeatures = some 1 from rfl),
    (show featGet "certificate_uploaded" demoQueryFeatures = some 0 from rfl),
    (show featGet "validation_status" demoQueryFeatures = some 1 from rfl),
    (show featGet "deadline_exceeded" demoQueryFeatures = some 0 from rfl),
    (show featGet "sector" demoQueryFeatures = some 1 from rfl),
    (show featGet "motivo" escalatedFeatures = some 8 from rfl),
    (show featGet "duracion" escalatedFeatures = some 2 from rfl),
    (show featGet "ausencias_ultimo_mes" escalatedFeatures = some 0 from rfl),
    (show featGet "certificate_uploaded" escalatedFeatures = some 0 from rfl),
    (show featGet "validation_status" escalatedFeatures = some 1 from rfl),
    (show featGet "deadline_exceeded" escalatedFeatures = some 0 from rfl),
    (show featGet "sector" escalatedFeatures = some 0 from rfl),
    featureSim_motivo, featureSim_cert, featureSim_valstat, featureSim_duracion,
    featureSim_aus, featureSim_sector, featureSim_deadline,
    (show demoQueryFeatures.isEmpty = false from rfl),
    (show escalatedFeatures.isEmpty = false from rfl)]
  norm_num [abs_of_nonneg, abs_of_nonpos, max_def]

theorem mf_query_approved :
    matchingFeatures demoQueryFeatures approvedFeatures =
      ["motivo", "duracion", "validation_status", "certificate_uploaded",
       "sector", "deadline_exceeded"] := by
  simp only [matchingFeatures, feature_weights, List.foldl_cons, List.foldl_nil,
    (show featGet "motivo" demoQueryFeatures = some 1 from rfl),
    (show featGet "duracion" demoQueryFeatures = some 1 from rfl),
    (show featGet "ausencias_ultimo_mes" demoQueryFeatures = some 1 from rfl),
    (show featGet "certificate_uploaded" demoQueryFeatures = some 0 from rfl),
    (show featGet "validation_status" demoQueryFeatures = some 1 from rfl),
    (show featGet "deadline_exceeded" demoQueryFeatures = some 0 from rfl),
    (show featGet "sector" demoQueryFeatures = some 1 from rfl),
    (show featGet "motivo" approvedFeatures = some 1 from rfl),
    (show featGet "duracion" approvedFeatures = some 1 from rfl),
    (show featGet "ausencias_ultimo_mes" approvedFeatures = some 3 from rfl),
    (show featGet "certificate_uploaded" approvedFeatures = some 0 from rfl),
    (show featGet "validation_status" approvedFeatures = some 1 from rfl),
    (show featGet "deadline_exceeded" approvedFeatures = some 0 from rfl),
    (show featGet "sector" approvedFeatures = some 1 from rfl)]
  norm_num [abs_of_nonneg, abs_of_nonpos]

theorem mf_query_escalated :
    matchingFeatures demoQueryFeatures escalatedFeatures =
      ["validation_status", "certificate_uploaded", "deadline_exceeded"] := by
  simp only [matchingFeatures, feature_weights, List.foldl_cons, List.foldl_nil,
    (show featGet "motivo" demoQueryFeatures = some 1 from rfl),
    (show featGet "duracion" demoQueryFeatures = some 1 from rfl),
    (show featGet "ausencias_ultimo_mes" demoQueryFeatures = some 1 from rfl),
    (show featGet "certificate_uploaded" demoQueryFeatures = some 0 from rfl),
    (show featGet "validation_status" demoQueryFeatures = some 1 from rfl),
    (show featGet "deadline_exceeded" demoQueryFeatures = some 0 from rfl),
    (show featGet "sector" demoQueryFeatures = some 1 from rfl),
    (show featGet "motivo" escalatedFeatures = some 8 from rfl),
    (show featGet "duracion" escalatedFeatures = some 2 from rfl),
    (show featGet "ausencias_ultimo_mes" escalatedFeatures = some 0 from rfl),
    (show featGet "certificate_uploaded" escalatedFeatures = some 0 from rfl),
    (show featGet "validation_status" escalatedFeatures = some 1 from rfl),
    (show featGet "deadline_exceeded" escalatedFeatures = some 0 from rfl),
    (show featGet "sector" escalatedFeatures = some 0 from rfl)]
  norm_num [abs_of_nonneg, abs_of_nonpos]

theorem similarCandidates_demo :
    similarCandidates demoQueryFeatures (4/10) [approvedCase, escalatedCase] =
      demoSims := by
  simp only [similarCandidates, List.foldl_cons, List.foldl_nil,
    (show approvedCase.similarity_features = approvedFeatures from rfl),
    (show escalatedCase.similarity_features = escalatedFeatures from rfl),
    sim_query_approved, sim_query_escalated, mf_query_approved, mf_query_escalated]
  norm_num [demoSims]

theorem outcomeVotes_demo :
    outcomeVotes demoSims = [("approved", (9:ℚ)/10), ("escalated", (2:ℚ)/5)] := rfl

theorem mostLikely_demo : mostLikelyOutcome demoSims = ("approved", 9/10) := by
  simp only [mostLikelyOutcome, outcomeVotes_demo]
  simp only [pyMaxBySnd, List.foldl_cons, List.foldl_nil]
  norm_num

theorem find_demo04 :
    find_similar_cases [approvedCase, escalatedCase] demoQueryFacts 5 (4/10) 0 =
      .ok demoSims := by
  unfold find_similar_cases
  rw [if_neg (by simp),
    (show extract_features 0 demoQueryFacts = .ok demoQueryFeatures from rfl)]
  simp only [ebind_ok, similarCandidates_demo]
  norm_num [List.insertionSort, List.orderedInsert, demoSims]

/-- C8: the recommendation of `get_recommendations` over a nonempty retrieved
neighbor list predicts the outcome with the largest similarity-weighted vote,
with confidence equal to that outcome's weighted vote divided by the sum of
all neighbor similarity scores; `get_recommendations` is exactly this
aggregation applied to the retrieved neighbors; and on the concrete
two-neighbor scenario (similarities 0.9 for `approved` and 0.4 for
`escalated`) the prediction is `approved` with confidence
`0.9 / (0.9 + 0.4) = 9/13`. -/
theorem recommendations_weighted_vote :
    (∀ sims : List SimilarCase, sims ≠ [] →
      (recommendFromNeighbors sims).confidence =
        voteFor (mostLikelyOutcome sims).1 sims / totalSimilarity sims ∧
      (∀ o ∈ sims.map (fun sc => sc.case.outcome),
        voteFor o sims ≤ voteFor (mostLikelyOutcome sims).1 sims) ∧
      (recommendFromNeighbors sims).recommendations.head?.map (fun it => it.suggestion)
        = some ("Outcome más probable: " ++ (mostLikelyOutcome sims).1)) ∧
    (∀ (cases : List Case) (facts : Env) (now : Int) (sims : List SimilarCase),
      find_similar_cases cases facts 5 (4/10) now = .ok sims →
      get_recommendations cases facts now = .ok (recommendFromNeighbors sims)) ∧
    ((recommendFromNeighbors demoSims).confidence = 9/13 ∧
      (recommendFromNeighbors demoSims).recommendations.head?.map
          (fun it => it.suggestion) = some "Outcome más probable: approved" ∧
      get_recommendations [approvedCase, escalatedCase] demoQueryFacts 0 =
        .ok (recommendFromNeighbors demoSims)) := by
  have hmain : ∀ sims : List SimilarCase, sims ≠ [] →
      (recommendFromNeighbors sims).confidence =
        voteFor (mostLikelyOutcome sims).1 sims / totalSimilarity sims ∧
      (∀ o ∈ sims.map (fun sc => sc.case.outcome),
        voteFor o sims ≤ voteFor (mostLikelyOutcome sims).1 sims) ∧
      (recommendFromNeighbors sims).recommendations.head?.map (fun it => it.suggestion)
        = some ("Outcome más probable: " ++ (mostLikelyOutcome sims).1) := by
    intro sims hne
    have hie : ¬ sims.isEmpty = true := by
      simp [List.isEmpty_iff, hne]
    obtain ⟨hval, hdom⟩ := mostLikely_vote sims hne
    refine ⟨?_, ?_, ?_⟩
    · simp only [recommendFromNeighbors]
      rw [if_neg hie]
      simp [hval]
    · intro o ho
      rw [← hval]
      exact hdom o ho
    · simp only [recommendFromNeighbors]
      rw [if_neg hie]
      simp
  have hlink : ∀ (cases : List Case) (facts : Env) (now : Int)
      (sims : List SimilarCase),
      find_similar_cases cases facts 5 (4/10) now = .ok sims →
      get_recommendations cases facts now = .ok (recommendFromNeighbors sims) := by
    intro cases facts now sims h
    unfold get_recommendations
    rw [h]
    rfl
  refine ⟨hmain, hlink, ?_, ?_, ?_⟩
  · have h1 := (hmain demoSims (by simp [demoSims])).1
    rw [h1, mostLikely_demo]
    have hne1 : ¬(("escalated" : String) = "approved") := by decide
    norm_num [voteFor, demoSims, approvedCase, escalatedCase, totalSimilarity,
      List.foldl_cons, List.foldl_nil, hne1]
  · have h3 := (hmain demoSims (by simp [demoSims])).2.2
    rw [h3, mostLikely_demo]
    rfl
  · exact hlink _ _ _ _ find_demo04

/-- Witness for C8 at the concrete two-neighbor scenario. -/
theorem recommendations_weighted_vote_witness :
    ((recommendFromNeighbors demoSims).confidence =
      voteFor (mostLikelyOutcome demoSims).1 demoSims / totalSimilarity demoSims) ∧
    get_recommendations [approvedCase, escalatedCase] demoQueryFacts 0 =
      .ok (recommendFromNeighbors demoSims) :=
  ⟨(recommendations_weighted_vote.1 demoSims (by simp [demoSims])).1,
   recommendations_weighted_vote.2.1 [approvedCase, escalatedCase] demoQueryFacts 0
     demoSims find_demo04⟩

/-! Per-rule executed-flag machinery for the once-per-rule analysis (C1). -/

theorem strData_append (a b : String) : (a ++ b).data = a.data ++ b.data := by
  cases a
  cases b
  rfl

theorem flagKey_head (i : String) : (flagKey i).data.head? = some 'r' := by
  show (("rule_" ++ i) ++ "_executed").data.head? = some 'r'
  rw [strData_append, strData_append]
  rfl

theorem flagKey_ne_sancion (i : String) : flagKey i ≠ "sancion_motivo" := by
  intro h
  have h2 := congrArg (fun s => s.data.head?) h
  simp only at h2
  rw [flagKey_head] at h2
  exact absurd h2 (by decide)

theorem flagKey_ne_aprobacion (i : String) : flagKey i ≠ "aprobacion_motivo" := by
  intro h
  have h2 := congrArg (fun s => s.data.head?) h
  simp only at h2
  rw [flagKey_head] at h2
  exact absurd h2 (by decide)

theorem flagTruthy_envSet_of_truthy (i k : String) (v : Value) (e : Env)
    (hv : truthy v = true) (h : flagTruthy i e = true) :
    flagTruthy i (envSet e k v) = true := by
  unfold flagTruthy at h ⊢
  by_cases hk : k = flagKey i
  · subst hk
    rw [envGet_envSet_self]
    simpa using hv
  · rw [envGet_envSet_ne e (flagKey i) k v hk]
    exact h

theorem flagTruthy_envSet_ne (i k : String) (v : Value) (e : Env)
    (hk : k ≠ flagKey i) :
    flagTruthy i (envSet e k v) = flagTruthy i e := by
  unfold flagTruthy
  rw [envGet_envSet_ne e (flagKey i) k v hk]

/-- A rule that passes `_should_evaluate_rule` has a falsy executed flag. -/
theorem fired_flag_falsy (now : Int) (facts : Env) (r : Rule)
    (h : should_evaluate_rule now facts r = true) :
    flagTruthy r.id facts = false := by
  unfold should_evaluate_rule at h
  by_cases hf : truthy ((envGet (flagKey r.id) facts).getD (.vBool false))
  · rw [if_pos hf] at h
    exact absurd h (by simp)
  · unfold flagTruthy
    simpa using hf

/-- `_execute_action` never turns a truthy executed flag falsy, provided no
`set_fact` action it performs writes the empty string into a flag key: every
key it can write either is not a flag key (`sancion_motivo`,
`aprobacion_motivo`) or receives a truthy value (`True`, a nonempty
observation list, or a nonempty fact string). -/
theorem execute_action_preserves_flag (a : String) (r : Rule) (facts : Env)
    (now : Int) (i : String)
    (H : ∀ n v, parseSetFact a = some (n, v) → n = flagKey i → v ≠ "")
    (h : flagTruthy i facts = true) :
    flagTruthy i (execute_action a r facts now).2 = true := by
  unfold execute_action
  by_cases hc : strHasChar a '(' && strHasChar a ')'
  case neg => rw [if_neg hc]; exact h
  case pos =>
  rw [if_pos hc]
  by_cases h1 : actionFuncName a = "add_observacion"
  · simp only [h1, if_true]
    cases hao : add_observacion facts (extract_string_arg (actionArgsStr a)) r now with
    | none => exact h
    | some facts2 =>
      unfold add_observacion at hao
      cases hobs : envGet "observaciones" facts with
      | none =>
        rw [hobs] at hao
        simp only [Option.some.injEq] at hao
        rw [← hao]
        exact flagTruthy_envSet_of_truthy i _ _ facts (by simp [truthy]) h
      | some v0 =>
        rw [hobs] at hao
        cases v0 with
        | vList xs =>
          simp only [Option.some.injEq] at hao
          rw [← hao]
          exact flagTruthy_envSet_of_truthy i _ _ facts (by simp [truthy]) h
        | vNone => simp at hao
        | vBool b => simp at hao
        | vInt n => simp at hao
        | vFloat q => simp at hao
        | vStr s => simp at hao
        | vDict entries => simp at hao
        | vDatetime t => simp at hao
        | vFunc f => simp at hao
  · simp only [h1, if_false]
    by_cases h2 : actionFuncName a = "mark_sanction"
    · simp only [h2, if_true]
      show flagTruthy i (envSet (envSet facts "sancion_aplicada" (.vBool true))
        "sancion_motivo" (.vStr r.name)) = true
      rw [flagTruthy_envSet_ne i _ _ _ (fun hh => flagKey_ne_sancion i hh.symm)]
      exact flagTruthy_envSet_of_truthy i _ _ facts (by simp [truthy]) h
    · simp only [h2, if_false]
      by_cases h3 : actionFuncName a = "set_fact"
      · simp only [h3, if_true]
        cases hs : pySplit (actionArgsStr a) ',' with
        | nil => exact h
        | cons p0 ps =>
          cases ps with
          | nil => exact h
          | cons p1 rest =>
            have hps : parseSetFact a = some
                (extract_string_arg (pyStrip p0),
                 extract_string_arg (pyStrip (String.intercalate "," (p1 :: rest)))) := by
              unfold parseSetFact
              rw [if_pos hc, if_pos h3, hs]
            show flagTruthy i (envSet facts (extract_string_arg (pyStrip p0))
              (.vStr (extract_string_arg
                (pyStrip (String.intercalate "," (p1 :: rest)))))) = true
            by_cases hn : extract_string_arg (pyStrip p0) = flagKey i
            · have hv := H _ _ hps hn
              rw [hn]
              exact flagTruthy_envSet_of_truthy i _ _ facts (by simp [truthy, hv]) h
            · rw [flagTruthy_envSet_ne i _ _ _ hn]
              exact h
      · simp only [h3, if_false]
        by_cases h4 : actionFuncName a = "require_approval"
        · simp only [h4, if_true]
          show flagTruthy i (envSet (envSet facts "requiere_aprobacion" (.vBool true))
            "aprobacion_motivo" (.vStr r.name)) = true
          rw [flagTruthy_envSet_ne i _ _ _ (fun hh => flagKey_ne_aprobacion i hh.symm)]
          exact flagTruthy_envSet_of_truthy i _ _ facts (by simp [truthy]) h
        · simp only [h4, if_false]
          exact h

/-- One scan pass preserves the once-per-rule invariant: every rule id has at
most one step so far, and a rule with a recorded step has a truthy executed
flag (so it can never fire again). -/
theorem scanFire_once (now : Int) (rules : List Rule) (st st' : RunState)
    (H : ∀ r ∈ rules, ∀ n v, parseSetFact r.action = some (n, v) →
      ∀ i, n = flagKey i → v ≠ "")
    (hinv : ∀ i, List.countP (fun s => s.rule_id == i) st.steps ≤ 1 ∧
      (1 ≤ List.countP (fun s => s.rule_id == i) st.steps →
        flagTruthy i st.facts = true))
    (h : scanFire now st rules = some st') :
    ∀ i, List.countP (fun s => s.rule_id == i) st'.steps ≤ 1 ∧
      (1 ≤ List.countP (fun s => s.rule_id == i) st'.steps →
        flagTruthy i st'.facts = true) := by
  induction rules with
  | nil => simp [scanFire] at h
  | cons r rs ih =>
    have Hr := H r (List.mem_cons_self r rs)
    have Hrs : ∀ r' ∈ rs, ∀ n v, parseSetFact r'.action = some (n, v) →
        ∀ i, n = flagKey i → v ≠ "" :=
      fun r' hr' => H r' (List.mem_cons.mpr (Or.inr hr'))
    by_cases hse : should_evaluate_rule now st.facts r
    case neg =>
      simp only [scanFire, hse, if_false] at h
      exact ih Hrs h
    case pos =>
      by_cases hcr : (evaluate_rule now st.facts r).condition_result
      case neg =>
        simp only [scanFire, hse, if_true, hcr, if_false] at h
        exact ih Hrs h
      case pos =>
        cases hexec : execute_action r.action r st.facts now with
        | mk aRes facts' =>
          simp only [scanFire, hse, if_true, hcr, hexec] at h
          injection h with h2
          subst h2
          intro i
          simp only [List.countP_append]
          have hstep : (evaluate_rule now st.facts r).rule_id = r.id := rfl
          have hfl : flagTruthy r.id st.facts = false := fired_flag_falsy now st.facts r hse
          by_cases hri : r.id = i
          · subst hri
            have hz : List.countP (fun s => s.rule_id == r.id) st.steps = 0 := by
              by_contra hnz
              have h1le : 1 ≤ List.countP (fun s => s.rule_id == r.id) st.steps := by
                omega
              have := (hinv r.id).2 h1le
              rw [this] at hfl
              exact absurd hfl (by simp)
            rw [hz]
            constructor
            · simp [List.countP_cons, hstep]
            · intro _
              show flagTruthy r.id (envSet facts' (flagKey r.id) (.vBool true)) = true
              unfold flagTruthy
              rw [envGet_envSet_self]
              rfl
          · have hz : List.countP (fun s => s.rule_id == i)
                [evaluate_rule now st.facts r] = 0 := by
              simp [List.countP_cons, hstep, hri]
            rw [hz]
            constructor
            · simpa using (hinv i).1
            · intro hle
              simp only [Nat.add_zero] at hle
              have hft := (hinv i).2 hle
              have hft2 : flagTruthy i facts' = true := by
                have := execute_action_preserves_flag r.action r st.facts now i
                  (fun n v hp hn => Hr n v hp i hn) hft
                rw [hexec] at this
                exact this
              exact flagTruthy_envSet_of_truthy i _ _ facts' (by simp [truthy]) hft2

/-- The outer loop preserves the once-per-rule invariant. -/
theorem runLoop_once (rules : List Rule) (now : Int) (n : Nat) (st : RunState)
    (H : ∀ r ∈ rules, ∀ n v, parseSetFact r.action = some (n, v) →
      ∀ i, n = flagKey i → v ≠ "")
    (hinv : ∀ i, List.countP (fun s => s.rule_id == i) st.steps ≤ 1 ∧
      (1 ≤ List.countP (fun s => s.rule_id == i) st.steps →
        flagTruthy i st.facts = true)) :
    ∀ i, List.countP (fun s => s.rule_id == i) (runLoop rules now n st).steps ≤ 1 := by
  induction n generalizing st with
  | zero => exact fun i => (hinv i).1
  | succ n ih =>
    cases h : scanFire now st rules with
    | none =>
      rw [runLoop_succ, h]
      exact fun i => (hinv i).1
    | some st' =>
      rw [runLoop_succ, h]
      exact ih st' (scanFire_once now rules st st' H hinv h)

/-- C1 (amended): a forward-chaining run always terminates — the loop runs at
most `max_iterations` scans, each firing at most one rule, so the trace has
at most `max_iterations` steps — and each rule fires at most once per run
PROVIDED no rule's `set_fact` action overwrites an executed flag
(`rule_<id>_executed`) with the falsy empty string; the engine sets the
firing rule's flag after its action, so a rule whose own action re-satisfies
its condition still fires only once. -/
theorem forward_chaining_bounded_and_once (rules : List Rule) (env : Env)
    (maxIter : Nat) (now : Int)
    (H : ∀ r ∈ rules, ∀ n v, parseSetFact r.action = some (n, v) →
      ∀ i, n = flagKey i → v ≠ "") :
    (forward_chaining rules env maxIter now).steps.length ≤ maxIter ∧
    ∀ i, List.countP (fun s => s.rule_id == i)
        (forward_chaining rules env maxIter now).steps ≤ 1 := by
  constructor
  · have hb := runLoop_steps_le rules now maxIter
      { facts := init_facts env now, steps := [], conclusions := [],
        actions_taken := [] }
    simpa [forward_chaining] using hb
  · have ho := runLoop_once rules now maxIter
      { facts := init_facts env now, steps := [], conclusions := [],
        actions_taken := [] } H
      (fun i => by simp)
    intro i
    exact ho i

/-- C1 (counterexample to the claim as stated): rule `r2`'s action
`set_fact('rule_r1_executed', '')` overwrites `r1`'s executed flag with the
falsy empty string, re-enabling `r1`; in the run over `[r1, r2]` (both
conditions `True`), rule `r1` fires twice. -/
theorem forward_chaining_rule_fires_twice :
    List.countP (fun s => s.rule_id == "r1")
        (forward_chaining (load_rules [cexR2, cexR1]) [] 100 0).steps = 2 ∧
    ¬ (∀ i, List.countP (fun s => s.rule_id == i)
        (forward_chaining (load_rules [cexR2, cexR1]) [] 100 0).steps ≤ 1) := by
  constructor
  · rfl
  · intro hall
    have := hall "r1"
    rw [(show List.countP (fun s => s.rule_id == "r1")
        (forward_chaining (load_rules [cexR2, cexR1]) [] 100 0).steps = 2 from rfl)]
      at this
    omega

/-- Witness for C1's amended theorem: a single benign rule (its action is not
a `set_fact`), on the empty caller environment at the default cap. -/
theorem forward_chaining_bounded_and_once_witness :
    (forward_chaining [demoRule] [] 100 0).steps.length ≤ 100 ∧
    ∀ i, List.countP (fun s => s.rule_id == i)
        (forward_chaining [demoRule] [] 100 0).steps ≤ 1 :=
  forward_chaining_bounded_and_once [demoRule] [] 100 0
    (fun r hr n v hp => by
      rw [List.mem_singleton] at hr
      rw [hr] at hp
      rw [(show parseSetFact demoRule.action = none from rfl)] at hp
      exact absurd hp (by simp))

end Tecnomyl
